import Mathlib

/-!
# Bangumi collection client: pagination, retry and error classification

A shallow embedding of `collection.go`, `types.go`, `errors.go` and the parts of
`client.go` / `options.go` they read, followed by theorems about the embedding.

Conventions of the embedding.

* Go `int` values that are only compared, incremented or copied are integers
  (`Int`); the one place where the code shifts and multiplies (`waitTime` in
  `doRequest`) is computed in 64-bit two's complement, made explicit by `wrap64`.
  The attempt counter of `doRequest`, which grows by one per issued request, is
  a natural number.
* A call ends by returning or by a panic that ends the process (`Outcome`). The
  panics of the package are modelled: `make` with a capacity that is negative
  or too large, and the dereference of a nil `*collection`.
* A slice of pointers that the package itself fills is a list of values; the
  decoded `[]*collection` is a list of optional values, `none` being nil. A nil
  slice and an empty slice are both `[]`.
* The transport, the URL parser and the JSON decoder are collaborators outside
  the package; they are parameters of the model (`Env`).
* Goroutines of an `errgroup` are represented by the order in which they
  complete, chosen by a scheduler parameter; `Wait` reports the error of the
  first goroutine that returned one.
-/

namespace Collection

/-! ## types.go -/

/-- Go `type SubjectType int`. -/
abbrev SubjectType := Int

/-- Go `type CollectionType int`. -/
abbrev CollectionType := Int

def SubjectTypeBook : SubjectType := 1
def SubjectTypeAnime : SubjectType := 2
def SubjectTypeGame : SubjectType := 3
def SubjectTypeMusic : SubjectType := 4
def SubjectTypeReal : SubjectType := 6

def CollectionTypeWish : CollectionType := 1
def CollectionTypeDone : CollectionType := 2
def CollectionTypeDoing : CollectionType := 3
def CollectionTypeOnHold : CollectionType := 4
def CollectionTypeDropped : CollectionType := 5

/-- Go `type Subject struct`. -/
structure Subject where
  ID : Int
  Name : String
  NameCn : String
  Rate : Int
  VolStatus : Int
  EpStatus : Int
  Tags : List String
  Private : Bool
deriving DecidableEq, Repr

/-- Go `type PageResult struct`. -/
structure PageResult where
  Data : List Subject
  Total : Int
  Limit : Int
  Offset : Int
deriving DecidableEq, Repr

/-- Go `type fetchParams struct`. -/
structure fetchParams where
  UserID : String
  SubjectType : SubjectType
  CollectionType : CollectionType
  Offset : Int
  Limit : Int
deriving DecidableEq, Repr

/-- The anonymous struct of the field `collection.Subject`; the fields of type
`float64` and the nested `images` / `tags` structs, which no code reads, are left out. -/
structure collectionSubject where
  Date : String
  Name : String
  NameCn : String
  ShortSummary : String
  Type_ : Int
  ID : Int
  Eps : Int
  Volumes : Int
  CollectionTotal : Int
  Rank : Int
deriving DecidableEq, Repr

/-- Go `type collection struct` (the wire record); `UpdatedAt` is kept as text. -/
structure collection where
  UpdatedAt : String
  Comment : String
  Tags : List String
  Subject : collectionSubject
  SubjectID : Int
  VolStatus : Int
  EpStatus : Int
  SubjectType : Int
  Type_ : Int
  Rate : Int
  Private : Bool
deriving DecidableEq, Repr

/-- Go `type result struct` (one decoded page response). `Data` is
`[]*collection`: `none` is a nil pointer, which is what a JSON `null` in `data`
decodes to. -/
structure result where
  Data : List (Option collection)
  Total : Int
  Limit : Int
  Offset : Int
deriving DecidableEq, Repr

/-- Go `func (c *collection) toSubject() *Subject`. -/
def collection.toSubject (c : collection) : Collection.Subject :=
  { ID := c.Subject.ID
    Name := c.Subject.Name
    NameCn := c.Subject.NameCn
    Rate := c.Rate
    VolStatus := c.VolStatus
    EpStatus := c.EpStatus
    Tags := c.Tags
    Private := c.Private }

/-- The loop of `toSubjects`: append `item.toSubject()` for each item, in order.
On a nil item `toSubject` dereferences a nil pointer: the loop panics (`none`). -/
def toSubjectsLoop (subjects : List Subject) : List (Option collection) → Option (List Subject)
  | [] => some subjects
  | none :: _ => none
  | some item :: rest => toSubjectsLoop (subjects ++ [item.toSubject]) rest

/-- Go `func (r *result) toSubjects() []*Subject`; `none` is the panic of a nil
pointer dereference. -/
def result.toSubjects (r : result) : Option (List Subject) :=
  toSubjectsLoop [] r.Data

/-! ## errors.go -/

/-- The error values that can flow through the package. The six sentinels are
compared by identity in the source, which is constructor equality here. -/
inductive GoError where
  | ErrInvalidUserID
  | ErrUnauthorized
  | ErrForbidden
  | ErrRateLimited
  | ErrServerError
  | ErrEmptyUserID
  /-- `&NetworkError{Err: err}`; the cause comes from `net/http` or `io`. -/
  | NetworkError (cause : String)
  /-- `&HTTPError{StatusCode, Body}`. -/
  | HTTPError (StatusCode : Int) (Body : String)
  /-- `fmt.Errorf(msg + "%w", wrapped)`. -/
  | Errorf (msg : String) (wrapped : GoError)
  /-- `ctx.Err()` of a context that is done. -/
  | ctxErr
  /-- An error made outside the package (URL parsing, JSON decoding). -/
  | external (msg : String)
deriving DecidableEq, Repr

/-! ## client.go -/

/-- Go `type Client struct`; `httpClient` is the transport of `Env`. Durations
are `time.Duration` values, i.e. nanoseconds. -/
structure Client where
  userAgent : String
  accessToken : String
  concurrencyLimit : Int
  requestTimeout : Int
  maxRetries : Int
  retryInterval : Int
deriving DecidableEq, Repr

def defaultConcurrencyLimit : Int := 10
def defaultRequestTimeout : Int := 30 * 1000000000
def defaultMaxRetries : Int := 3
def defaultRetryInterval : Int := 1000000000

/-- `NewClient(userAgent)` without options. -/
def NewClient (userAgent : String) : Client :=
  { userAgent := userAgent
    accessToken := ""
    concurrencyLimit := defaultConcurrencyLimit
    requestTimeout := defaultRequestTimeout
    maxRetries := defaultMaxRetries
    retryInterval := defaultRetryInterval }

/-- Option `WithConcurrencyLimit`. -/
def WithConcurrencyLimit (limit : Int) (c : Client) : Client :=
  if limit > 0 then { c with concurrencyLimit := limit } else c

/-- Option `WithMaxRetries`. -/
def WithMaxRetries (maxRetries : Int) (c : Client) : Client :=
  if maxRetries ≥ 0 then { c with maxRetries := maxRetries } else c

/-- Option `WithRetryInterval`. -/
def WithRetryInterval (interval : Int) (c : Client) : Client :=
  if interval > 0 then { c with retryInterval := interval } else c

/-! ## collection.go: constants and pure helpers -/

def pageSize : Int := 50

def StatusOK : Int := 200
def StatusUnauthorized : Int := 401
def StatusForbidden : Int := 403
def StatusNotFound : Int := 404
def StatusTooManyRequests : Int := 429

/-- Go `unicode.IsSpace`: the Unicode White_Space property. -/
def isSpace (r : Char) : Bool :=
  let n := r.toNat
  if n ≤ 0xFF then
    n = 0x09 || n = 0x0A || n = 0x0B || n = 0x0C || n = 0x0D || n = 0x20 || n = 0x85 || n = 0xA0
  else
    n = 0x1680 || (0x2000 ≤ n && n ≤ 0x200A) || n = 0x2028 || n = 0x2029 ||
      n = 0x202F || n = 0x205F || n = 0x3000

/-- Go `strings.TrimSpace`: drop leading, then trailing, white space. -/
def TrimSpace (s : String) : String :=
  String.mk ((s.data.dropWhile isSpace).rdropWhile isSpace)

/-- Go `func validateUserID(userID string) error`; `none` is the nil error. -/
def validateUserID (userID : String) : Option GoError :=
  if TrimSpace userID = "" then some GoError.ErrEmptyUserID else none

/-- Go `func clamp(v, minVal, maxVal int) int`. -/
def clamp (v minVal maxVal : Int) : Int :=
  if v < minVal then minVal
  else if v > maxVal then maxVal
  else v

/-- Go `func (c *Client) handleStatusCode(statusCode int, body []byte) error`. -/
def handleStatusCode (statusCode : Int) (body : String) : Option GoError :=
  if statusCode = StatusOK then none
  else if statusCode = StatusNotFound then some GoError.ErrInvalidUserID
  else if statusCode = StatusUnauthorized then some GoError.ErrUnauthorized
  else if statusCode = StatusForbidden then some GoError.ErrForbidden
  else if statusCode = StatusTooManyRequests then some GoError.ErrRateLimited
  else if statusCode ≥ 500 then some GoError.ErrServerError
  else if statusCode ≥ 400 then some (GoError.HTTPError statusCode body)
  else none

/-- Go `errors.As(err, &netErr)` with `netErr *NetworkError`: walk the `Unwrap` chain. -/
def asNetworkError : GoError → Bool
  | GoError.NetworkError _ => true
  | GoError.Errorf _ wrapped => asNetworkError wrapped
  | _ => false

/-- Go `func (c *Client) isRetryable(err error) bool`. -/
def isRetryable (err : GoError) : Bool :=
  if err = GoError.ErrRateLimited ∨ err = GoError.ErrServerError then true
  else if asNetworkError err then true
  else false

/-! ## collection.go: one request -/

/-- Go `baseURL` with the user ID substituted by `fmt.Sprintf`. -/
def baseURL (userID : String) : String :=
  "https://api.bgm.tv/v0/users/" ++ userID ++ "/collections"

/-- The `*http.Request` that `buildRequest` makes. The four query values are the
integers that `strconv.Itoa` encodes. -/
structure Request where
  Method : String
  URL : String
  subject_type : Int
  type : Int
  offset : Int
  limit : Int
  UserAgent : String
  Authorization : Option String
deriving DecidableEq, Repr

/-- What `c.httpClient.Do(req)` followed by `io.ReadAll(resp.Body)` gives. -/
inductive RoundTrip where
  | doFailed (cause : String)
  | readFailed (cause : String)
  | response (StatusCode : Int) (body : String)
deriving DecidableEq, Repr

/-- The collaborators of one logical request and what it observes of its context.
`httpDo req n` is the transport's answer to the `n`-th attempt (from 0) of `req`;
`ctxDone p n` tells whether, in the `select` before attempt `n` of the request
with parameters `p`, the branch `<-ctx.Done()` is taken; `granted n` tells
whether the runtime has `n` bytes of memory for the accumulator of
`fetchAllPages`. -/
structure Env where
  parseURL : String → Option String
  httpDo : Request → Nat → RoundTrip
  unmarshal : String → Except String result
  ctxDone : fetchParams → Nat → Bool
  granted : Int → Bool

/-- Go `func (c *Client) buildRequest(ctx, p) (*http.Request, error)`. -/
def buildRequest (c : Client) (env : Env) (p : fetchParams) : Except GoError Request :=
  let url := baseURL p.UserID
  match env.parseURL url with
  | some msg => Except.error (GoError.external msg)
  | none =>
    Except.ok
      { Method := "GET"
        URL := url
        subject_type := p.SubjectType
        type := p.CollectionType
        offset := p.Offset
        limit := p.Limit
        UserAgent := c.userAgent
        Authorization := if c.accessToken ≠ "" then some ("Bearer " ++ c.accessToken) else none }

/-- Go `func (c *Client) doRequestOnce(ctx, p) (*result, error)`, as attempt number `n`. -/
def doRequestOnce (c : Client) (env : Env) (p : fetchParams) (n : Nat) : Except GoError result :=
  match buildRequest c env p with
  | Except.error err => Except.error err
  | Except.ok req =>
    match env.httpDo req n with
    | RoundTrip.doFailed cause => Except.error (GoError.NetworkError cause)
    | RoundTrip.readFailed cause => Except.error (GoError.NetworkError cause)
    | RoundTrip.response statusCode body =>
      match handleStatusCode statusCode body with
      | some err => Except.error err
      | none =>
        match env.unmarshal body with
        | Except.error msg => Except.error (GoError.Errorf "failed to parse response: " (GoError.external msg))
        | Except.ok r => Except.ok r

/-! ## collection.go: the retry loop -/

/-- The value of a 64-bit signed integer after an operation whose exact result is `x`. -/
def wrap64 (x : Int) : Int :=
  (x + 2 ^ 63) % 2 ^ 64 - 2 ^ 63

/-- Go `x << s` on `int64` (`time.Duration`); a count of 64 or more gives 0. -/
def shl64 (x : Int) (s : Nat) : Int :=
  wrap64 (x * 2 ^ s)

/-- Go `waitTime := c.retryInterval * time.Duration(1<<(attempt-1))`, for `attempt > 0`. -/
def waitTime (c : Client) (attempt : Nat) : Int :=
  wrap64 (c.retryInterval * shl64 1 (attempt - 1))

/-- What `doRequest` does that is visible from outside. -/
inductive Event where
  /-- The `time.After(d)` branch of the `select` before attempt `attempt` was taken. -/
  | wait (attempt : Nat) (d : Int)
  /-- One call of `doRequestOnce`, attempt number `attempt`. -/
  | request (attempt : Nat) (p : fetchParams)
deriving DecidableEq, Repr

def Event.isRequest : Event → Bool
  | Event.request _ _ => true
  | Event.wait _ _ => false

/-- The result of one `doRequest` call and the events it produced, in order. -/
structure DoRun where
  res : Except GoError result
  trace : List Event

/-- Number of `doRequestOnce` calls in a run. -/
def DoRun.attempts (r : DoRun) : Nat :=
  (r.trace.filter Event.isRequest).length

/-- The error after the loop: `fmt.Errorf("max retries exceeded: %w", lastErr)`. -/
def maxRetriesExceeded : Option GoError → GoError
  | some lastErr => GoError.Errorf "max retries exceeded: " lastErr
  | none => GoError.external "max retries exceeded: %!w(<nil>)"

/-- The `for attempt := ...; attempt <= c.maxRetries; attempt++` loop of `doRequest`
with `remaining` iterations left (`c.maxRetries + 1 - attempt`). -/
def doRequestLoop (c : Client) (env : Env) (p : fetchParams) :
    Nat → Nat → Option GoError → DoRun
  | 0, _, lastErr => ⟨Except.error (maxRetriesExceeded lastErr), []⟩
  | remaining + 1, attempt, _ =>
    if attempt > 0 ∧ env.ctxDone p attempt = true then
      ⟨Except.error GoError.ctxErr, []⟩
    else
      let waited := if attempt > 0 then [Event.wait attempt (waitTime c attempt)] else []
      match doRequestOnce c env p attempt with
      | Except.ok r => ⟨Except.ok r, waited ++ [Event.request attempt p]⟩
      | Except.error err =>
        if isRetryable err = false then
          ⟨Except.error err, waited ++ [Event.request attempt p]⟩
        else
          let rest := doRequestLoop c env p remaining (attempt + 1) (some err)
          ⟨rest.res, waited ++ Event.request attempt p :: rest.trace⟩

/-- Go `func (c *Client) doRequest(ctx, p) (*result, error)`. -/
def doRequest (c : Client) (env : Env) (p : fetchParams) : DoRun :=
  doRequestLoop c env p (c.maxRetries + 1).toNat 0 none

/-! ## collection.go: pagination and fan-out -/

/-- How a call ends: it returns its pair `(value, error)`, or it panics. -/
inductive Outcome (α : Type) where
  | returned (val : α) (err : Option GoError)
  | panicked (msg : String)
deriving DecidableEq, Repr

/-- The error a finished call reports to its `errgroup` (`none` is nil). -/
def Outcome.err {α : Type} : Outcome α → Option GoError
  | Outcome.returned _ err => err
  | Outcome.panicked _ => none

/-- The items a finished call hands over. -/
def Outcome.items {α : Type} : Outcome (List α) → List α
  | Outcome.returned val _ => val
  | Outcome.panicked _ => []

def Outcome.isPanic {α : Type} : Outcome α → Bool
  | Outcome.returned _ _ => false
  | Outcome.panicked _ => true

/-- Size of a pointer on a 64-bit target. -/
def ptrSize : Int := 8

/-- Go `runtime.maxAlloc` on a 64-bit target with 48 address bits (linux/amd64). -/
def maxAlloc : Int := 2 ^ 48

/-- Go `make([]*Subject, 0, capacity)`, i.e. `runtime.makeslice`: a run-time
panic when the capacity is negative or the size `ptrSize * capacity` exceeds
`maxAlloc`, a fatal error when the runtime does not have the memory, otherwise
an empty slice. -/
def makeSubjects (env : Env) (capacity : Int) : Except String (List Subject) :=
  if capacity < 0 ∨ ptrSize * capacity > maxAlloc then
    Except.error "makeslice: cap out of range"
  else if env.granted (ptrSize * capacity) = false then
    Except.error "out of memory"
  else Except.ok []

/-- The offsets visited by `for offset := 0; offset < total; offset += pageSize`,
started at `offset`. The counter is an unbounded integer: in Go it can wrap
around only for a total above `2^63 - 50`, which `make` has refused before the
loop starts. -/
def pageLoop (total : Int) (offset : Int) : List Int :=
  if offset < total then offset :: pageLoop total (offset + pageSize) else []
termination_by (total - offset).toNat
decreasing_by
  simp only [pageSize]
  omega

/-- Position `k` of a list of length `n` is taken as `min k n`. -/
def insertAt {α : Type} (x : α) : Nat → List α → List α
  | 0, l => x :: l
  | _ + 1, [] => [x]
  | k + 1, y :: l => y :: insertAt x k l

/-- The order in which the goroutines started for `l` complete (and take the
mutex), as chosen by the scheduler `sched`: every arrangement of `l` is the
completion order of some scheduler. -/
def completionOrder {α : Type} (sched : Nat → Nat) : List α → List α
  | [] => []
  | x :: xs => insertAt x (sched xs.length) (completionOrder sched xs)

/-- Go `errgroup.Group.Wait`: the first non-nil error returned by a goroutine,
the goroutines taken in completion order. -/
def firstError : List (Option GoError) → Option GoError
  | [] => none
  | some err :: _ => some err
  | none :: rest => firstError rest

/-- The message of the first panic among finished calls, if any. -/
def panicMessage {α : Type} : List (Outcome α) → Option String
  | [] => none
  | Outcome.panicked msg :: _ => some msg
  | Outcome.returned _ _ :: rest => panicMessage rest

/-- Index, in start order, of the first goroutine that panics, if any. -/
def panicIndex {α : Type} : List (Outcome α) → Option Nat
  | [] => none
  | Outcome.panicked _ :: _ => some 0
  | Outcome.returned _ _ :: rest => (panicIndex rest).map (· + 1)

/-- The error of a `doRequest` result (`none` is nil). -/
def DoRun.err (r : DoRun) : Option GoError :=
  match r.res with
  | Except.ok _ => none
  | Except.error err => some err

/-- The goroutine `fetchAllPages` starts for one page, given its `doRequest`
run: it returns the error, or appends `r.toSubjects()` and returns nil, or
panics in `toSubjects` on a nil item. -/
def pageGoroutine (run : DoRun) : Outcome (List Subject) :=
  match run.res with
  | Except.error err => Outcome.returned [] (some err)
  | Except.ok r =>
    match r.toSubjects with
    | some subjects => Outcome.returned subjects none
    | none => Outcome.panicked "invalid memory address or nil pointer dereference"

/-- The parameters of the page at `offset`, built in the loop of `fetchAllPages`. -/
def pageParams (p : fetchParams) (offset : Int) : fetchParams :=
  { UserID := p.UserID
    SubjectType := p.SubjectType
    CollectionType := p.CollectionType
    Offset := offset
    Limit := pageSize }

/-- The page fetches the loop of `fetchAllPages` hands to `g.Go` when it runs to
its end, in dispatch order: the parameters of each and its `doRequest` run. -/
def pageRuns (c : Client) (env : Env) (p : fetchParams) (total : Int) :
    List (fetchParams × DoRun) :=
  (pageLoop total 0).map fun offset =>
    (pageParams p offset, doRequest c env (pageParams p offset))

/-- One `fetchAllPages` call: how it ended, the probe, and the page fetches it
handed to `g.Go`, in dispatch order, each with its parameters. -/
structure PagesRun where
  out : Outcome (List Subject)
  probe : DoRun
  pages : List (fetchParams × DoRun)

/-- Go `func (c *Client) fetchAllPages(ctx, p) ([]*Subject, error)`.
For `n` offsets, `sched k` with `k < n` fixes the completion order of the page
goroutines. When a page goroutine panics the process ends while the loop may
still be handing offsets to `g.Go`: the pages started are those up to the first
one that panics and `sched n` more. -/
def fetchAllPages (c : Client) (env : Env) (sched : Nat → Nat) (p : fetchParams) : PagesRun :=
  let probe := doRequest c env { p with Limit := 1 }
  match probe.res with
  | Except.error err => ⟨Outcome.returned [] (some err), probe, []⟩
  | Except.ok firstPage =>
    let total := firstPage.Total
    if total = 0 then ⟨Outcome.returned [] none, probe, []⟩
    else
      match makeSubjects env total with
      | Except.error msg => ⟨Outcome.panicked msg, probe, []⟩
      | Except.ok subjects =>
        let pages := pageRuns c env p total
        match panicIndex (pages.map fun pg => pageGoroutine pg.2) with
        | some i =>
          ⟨Outcome.panicked "invalid memory address or nil pointer dereference", probe,
            pages.take (i + 1 + sched pages.length)⟩
        | none =>
          let done := completionOrder sched pages
          match firstError (done.map fun d => d.2.err) with
          | some err => ⟨Outcome.returned [] (some err), probe, pages⟩
          | none =>
            ⟨Outcome.returned (subjects ++ done.flatMap fun d => (pageGoroutine d.2).items) none,
              probe, pages⟩

/-- What surrounds one `Fetch` call: the environment seen by the requests of the
`i`-th collection type, the scheduling of its page goroutines, and the
completion order of the goroutines of `Fetch` itself. -/
structure World where
  env : Nat → Env
  inner : Nat → Nat → Nat
  outer : Nat → Nat

/-- The goroutine `Fetch` starts for `ct`, the `i`-th collection type. -/
def runOf (c : Client) (w : World) (userID : String) (subjType : SubjectType)
    (i : Nat) (ct : CollectionType) : PagesRun :=
  fetchAllPages c (w.env i) (w.inner i)
    { UserID := userID, SubjectType := subjType, CollectionType := ct, Offset := 0, Limit := 0 }

/-- The goroutines `Fetch` starts, one per collection type, numbered from `i`. -/
def spawnAll (c : Client) (w : World) (userID : String) (subjType : SubjectType) :
    Nat → List CollectionType → List PagesRun
  | _, [] => []
  | i, ct :: rest => runOf c w userID subjType i ct :: spawnAll c w userID subjType (i + 1) rest

/-- One `Fetch` call: how it ended and the `fetchAllPages` runs it started, each
as it goes when no other goroutine ends the process first. -/
structure FetchRun where
  out : Outcome (List Subject)
  runs : List PagesRun

/-- Go `func (c *Client) Fetch(ctx, userID, subjType, collTypes...) ([]*Subject, error)`.
Each goroutine sees the collection type of its own iteration (loop variables
of Go 1.22). A goroutine that panics takes the whole call down. -/
def Fetch (c : Client) (w : World) (userID : String) (subjType : SubjectType)
    (collTypes : List CollectionType) : FetchRun :=
  match validateUserID userID with
  | some err => ⟨Outcome.returned [] (some err), []⟩
  | none =>
    let runs := spawnAll c w userID subjType 0 collTypes
    let done := completionOrder w.outer runs
    match panicMessage (done.map fun r => r.out) with
    | some msg => ⟨Outcome.panicked msg, runs⟩
    | none =>
      match firstError (done.map fun r => r.out.err) with
      | some err => ⟨Outcome.returned [] (some err), runs⟩
      | none => ⟨Outcome.returned (done.flatMap fun r => r.out.items) none, runs⟩

/-- The parameters `FetchPage` builds from its arguments. -/
def fetchPageParams (userID : String) (subjType : SubjectType) (collType : CollectionType)
    (limit offset : Int) : fetchParams :=
  { UserID := userID
    SubjectType := subjType
    CollectionType := collType
    Limit := clamp limit 1 pageSize
    Offset := max offset 0 }

/-- One `FetchPage` call: the returned pair, the `doRequest` run, if any, and
the message of the panic, if the call panicked instead of returning. -/
structure PageRun where
  val : Option PageResult
  err : Option GoError
  run : Option DoRun
  panic : Option String

/-- Go `func (c *Client) FetchPage(ctx, userID, subjType, collType, limit, offset) (*PageResult, error)`. -/
def FetchPage (c : Client) (env : Env) (userID : String) (subjType : SubjectType)
    (collType : CollectionType) (limit offset : Int) : PageRun :=
  match validateUserID userID with
  | some err => ⟨none, some err, none, none⟩
  | none =>
    let p := fetchPageParams userID subjType collType limit offset
    let run := doRequest c env p
    match run.res with
    | Except.error err => ⟨none, some err, some run, none⟩
    | Except.ok r =>
      match r.toSubjects with
      | none => ⟨none, none, some run, some "invalid memory address or nil pointer dereference"⟩
      | some data =>
        ⟨some { Data := data, Total := r.Total, Limit := r.Limit, Offset := r.Offset },
          none, some run, none⟩

/-- An attempt outcome that ends the retry loop: a success, or an error that
`isRetryable` rejects. -/
def terminal : Except GoError result → Bool
  | Except.ok _ => true
  | Except.error err => !isRetryable err

/-! ## collection.go: the two levels of `errgroup` limits

`Fetch` makes one `errgroup` and calls `g.SetLimit(c.concurrencyLimit)` on it;
every `fetchAllPages` it starts makes a group of its own and sets the same
limit on that one. `g.Go` blocks while the group already runs `limit`
goroutines. The state below counts the goroutines of each group. -/

/-- One running goroutine of the group of `Fetch`, i.e. one `fetchAllPages` call. -/
structure Orchestrator where
  /-- The probe `doRequest` has not returned yet: its request is in flight. -/
  probing : Bool
  /-- Offsets the loop has still to hand to `g.Go` of the inner group. -/
  pendingPages : Nat
  /-- Goroutines of the inner group that are running `doRequest`: requests in flight. -/
  activePages : Nat
deriving DecidableEq, Repr

/-- The goroutines of one `Fetch` call. `waiting` holds, for each collection
type not yet handed to `g.Go`, the number of pages its probe will call for. -/
structure Groups where
  limit : Nat
  waiting : List Nat
  running : List Orchestrator
deriving DecidableEq, Repr

/-- What can happen next. -/
inductive Action where
  /-- `Fetch`: `g.Go(...)` for the next collection type returns; the goroutine
  starts `fetchAllPages`, which sends its probe. -/
  | start
  /-- The probe of the `i`-th running orchestrator returns. -/
  | probeDone (i : Nat)
  /-- `fetchAllPages` of the `i`-th running orchestrator: `g.Go(...)` for the
  next offset returns; the goroutine sends its page request. -/
  | dispatch (i : Nat)
  /-- A page goroutine of the `i`-th running orchestrator returns. -/
  | pageDone (i : Nat)
  /-- `g.Wait()` of the `i`-th running orchestrator returns and so does its goroutine. -/
  | finish (i : Nat)
deriving DecidableEq, Repr

/-- One action, or `none` when the action is not enabled (a blocked `g.Go`, a
goroutine that does not exist). -/
def step (s : Groups) : Action → Option Groups
  | Action.start =>
    match s.waiting with
    | [] => none
    | pages :: rest =>
      if s.running.length < s.limit then
        some { s with waiting := rest, running := s.running ++ [⟨true, pages, 0⟩] }
      else none
  | Action.probeDone i =>
    match s.running.get? i with
    | some o =>
      if o.probing = true then
        some { s with running := List.set s.running i ⟨false, o.pendingPages, o.activePages⟩ }
      else none
    | none => none
  | Action.dispatch i =>
    match s.running.get? i with
    | some o =>
      if o.probing = false ∧ 0 < o.pendingPages ∧ o.activePages < s.limit then
        some { s with
          running := List.set s.running i ⟨false, o.pendingPages - 1, o.activePages + 1⟩ }
      else none
    | none => none
  | Action.pageDone i =>
    match s.running.get? i with
    | some o =>
      if 0 < o.activePages then
        some { s with
          running := List.set s.running i ⟨o.probing, o.pendingPages, o.activePages - 1⟩ }
      else none
    | none => none
  | Action.finish i =>
    match s.running.get? i with
    | some o =>
      if o.probing = false ∧ o.pendingPages = 0 ∧ o.activePages = 0 then
        some { s with running := s.running.eraseIdx i }
      else none
    | none => none

/-- A sequence of actions from `s`, if each is enabled in turn. -/
def steps (s : Groups) : List Action → Option Groups
  | [] => some s
  | a :: rest =>
    match step s a with
    | some t => steps t rest
    | none => none

/-- Requests in flight while every running `doRequest` is inside
`httpClient.Do`: one per probing orchestrator and one per page goroutine. -/
def inFlight (s : Groups) : Nat :=
  (s.running.map fun o => (if o.probing then 1 else 0) + o.activePages).sum

/-- `Fetch` called with concurrency limit `limit` for collection types whose
probes will call for the given numbers of pages. -/
def initialGroups (limit : Nat) (pages : List Nat) : Groups :=
  { limit := limit, waiting := pages, running := [] }

/-- Each group keeps to its own limit: at most `limit` orchestrators run, and
each has at most `limit` page goroutines, none while it is still probing. -/
def withinGroupLimits (s : Groups) : Prop :=
  s.running.length ≤ s.limit ∧
    ∀ o ∈ s.running, o.activePages ≤ s.limit ∧ (o.probing = true → o.activePages = 0)

/-! ## Sample clients and environments -/

/-- Parameters of a query for the anime a user has finished. -/
def sampleParams : fetchParams :=
  { UserID := "u", SubjectType := SubjectTypeAnime, CollectionType := CollectionTypeDone,
    Offset := 0, Limit := 0 }

/-- An empty page reporting `total` items. -/
def emptyPage (total : Int) : result :=
  { Data := [], Total := total, Limit := 0, Offset := 0 }

/-- A transport that answers every attempt of every request with `status`; a
body, when one is decoded, is the page `r`; the context is never done. -/
def constEnv (status : Int) (r : result) : Env :=
  { parseURL := fun _ => none
    httpDo := fun _ _ => RoundTrip.response status ""
    unmarshal := fun _ => Except.ok r
    ctxDone := fun _ _ => false
    granted := fun _ => true }

/-- The default client, allowed 35 retries. -/
def client35 : Client :=
  WithMaxRetries 35 (NewClient "ua")

/-- A wire record for the subject numbered `id`. -/
def sampleItem (id : Int) : collection :=
  { UpdatedAt := "", Comment := "", Tags := []
    Subject :=
      { Date := "", Name := "", NameCn := "", ShortSummary := "", Type_ := 2, ID := id,
        Eps := 12, Volumes := 0, CollectionTotal := 0, Rank := 0 }
    SubjectID := id, VolStatus := 0, EpStatus := 0, SubjectType := 2, Type_ := 2, Rate := 0,
    Private := false }

/-- The page of a collection of 120 items that starts at `offset` and holds `n` items. -/
def samplePage (offset n : Nat) : result :=
  { Data := (List.range n).map fun i => some (sampleItem ((offset + i : Nat) : Int))
    Total := 120, Limit := 50, Offset := offset }

/-- A server holding 120 items that answers 429 to the first attempt for the page
at offset 50 and 200 to everything else. -/
def flakyEnv : Env :=
  { parseURL := fun _ => none
    httpDo := fun req n =>
      if req.limit = 50 ∧ req.offset = 50 ∧ n = 0 then RoundTrip.response 429 ""
      else if req.limit = 1 then RoundTrip.response 200 "probe"
      else if req.offset = 0 then RoundTrip.response 200 "page0"
      else if req.offset = 50 then RoundTrip.response 200 "page50"
      else RoundTrip.response 200 "page100"
    unmarshal := fun body =>
      if body = "probe" then Except.ok (samplePage 0 1)
      else if body = "page0" then Except.ok (samplePage 0 50)
      else if body = "page50" then Except.ok (samplePage 50 50)
      else if body = "page100" then Except.ok (samplePage 100 20)
      else Except.error "unexpected end of JSON input"
    ctxDone := fun _ _ => false
    granted := fun _ => true }

/-- The pages `flakyEnv` serves, by offset. -/
def flakyPages (offset : Int) : result :=
  if offset = 0 then samplePage 0 50
  else if offset = 50 then samplePage 50 50
  else samplePage 100 20

/-- A server holding 120 items per collection type whose page at offset 50
answers 500 to every attempt. -/
def brokenEnv : Env :=
  { parseURL := fun _ => none
    httpDo := fun req _ =>
      if req.limit = 50 ∧ req.offset = 50 then RoundTrip.response 500 ""
      else if req.limit = 1 then RoundTrip.response 200 "probe"
      else if req.offset = 0 then RoundTrip.response 200 "page0"
      else RoundTrip.response 200 "page100"
    unmarshal := flakyEnv.unmarshal
    ctxDone := fun _ _ => false
    granted := fun _ => true }

/-- Every collection type is served by `brokenEnv`; goroutines complete in the
order in which they were started. -/
def brokenWorld : World :=
  { env := fun _ => brokenEnv, inner := fun _ _ => 0, outer := fun _ => 0 }

/-- A page of one item whose only datum is nil (`"data": [null]`). -/
def nullPage : result :=
  { Data := [none], Total := 1, Limit := 50, Offset := 0 }

/-- A total no slice of pointers can hold: `8 * 2^60` bytes exceed `maxAlloc`. -/
def hugeTotal : Int := 2 ^ 60

/-- The first collection type is answered 404; the probes of the others report
`hugeTotal` items. -/
def mixedWorld : World :=
  { env := fun i => if i = 0 then constEnv 404 (emptyPage 0) else constEnv 200 (emptyPage hugeTotal)
    inner := fun _ _ => 0
    outer := fun _ => 0 }

/-! # Theorems -/

/-! ## Classification of status codes -/

theorem isRetryable_iff (err : GoError) :
    isRetryable err = true ↔
      err = GoError.ErrRateLimited ∨ err = GoError.ErrServerError ∨ asNetworkError err = true := by
  unfold isRetryable
  by_cases h : err = GoError.ErrRateLimited ∨ err = GoError.ErrServerError
  · simp only [h, if_true, true_iff]
    rcases h with h | h
    · exact Or.inl h
    · exact Or.inr (Or.inl h)
  · simp only [h, if_false]
    have h1 : err ≠ GoError.ErrRateLimited := fun e => h (Or.inl e)
    have h2 : err ≠ GoError.ErrServerError := fun e => h (Or.inr e)
    by_cases hn : asNetworkError err = true <;> simp [hn, h1, h2]

/-- C4: `handleStatusCode` maps 404, 401, 403, 429 to their sentinels, every
status of 500 or more to `ErrServerError`, every other status from 400 to 499 to
an `HTTPError` with that status and the body, and 200 to no error; among its
results `isRetryable` accepts exactly `ErrRateLimited` and `ErrServerError`, so
a status yields a retryable error iff it is 429 or at least 500. -/
theorem handleStatusCode_classifies (statusCode : Int) (body : String) :
    handleStatusCode 404 body = some GoError.ErrInvalidUserID ∧
    handleStatusCode 401 body = some GoError.ErrUnauthorized ∧
    handleStatusCode 403 body = some GoError.ErrForbidden ∧
    handleStatusCode 429 body = some GoError.ErrRateLimited ∧
    handleStatusCode 200 body = none ∧
    (statusCode ≥ 500 → handleStatusCode statusCode body = some GoError.ErrServerError) ∧
    (400 ≤ statusCode ∧ statusCode < 500 ∧ statusCode ≠ 401 ∧ statusCode ≠ 403 ∧
        statusCode ≠ 404 ∧ statusCode ≠ 429 →
      handleStatusCode statusCode body = some (GoError.HTTPError statusCode body)) ∧
    (∀ err, handleStatusCode statusCode body = some err →
      (isRetryable err = true ↔ err = GoError.ErrRateLimited ∨ err = GoError.ErrServerError)) ∧
    ((∃ err, handleStatusCode statusCode body = some err ∧ isRetryable err = true) ↔
      statusCode = 429 ∨ statusCode ≥ 500) := by
  refine ⟨by simp [handleStatusCode, StatusOK, StatusNotFound],
    by simp [handleStatusCode, StatusOK, StatusNotFound, StatusUnauthorized],
    by simp [handleStatusCode, StatusOK, StatusNotFound, StatusUnauthorized, StatusForbidden],
    by simp [handleStatusCode, StatusOK, StatusNotFound, StatusUnauthorized, StatusForbidden,
      StatusTooManyRequests],
    by simp [handleStatusCode, StatusOK], ?_, ?_, ?_, ?_⟩
  · intro h
    unfold handleStatusCode StatusOK StatusNotFound StatusUnauthorized StatusForbidden
      StatusTooManyRequests
    rw [if_neg (by omega), if_neg (by omega), if_neg (by omega), if_neg (by omega),
      if_neg (by omega), if_pos h]
  · rintro ⟨h1, h2, h3, h4, h5, h6⟩
    unfold handleStatusCode StatusOK StatusNotFound StatusUnauthorized StatusForbidden
      StatusTooManyRequests
    rw [if_neg (by omega), if_neg h5, if_neg h3, if_neg h4, if_neg h6, if_neg (by omega),
      if_pos h1]
  · intro err h
    unfold handleStatusCode at h
    split_ifs at h <;> cases h <;> simp [isRetryable, asNetworkError]
  · unfold handleStatusCode StatusOK StatusNotFound StatusUnauthorized StatusForbidden
      StatusTooManyRequests
    constructor
    · rintro ⟨err, h, hr⟩
      split_ifs at h <;> cases h <;>
        first
          | omega
          | (simp [isRetryable, asNetworkError] at hr)
    · rintro (h | h)
      · subst h
        exact ⟨GoError.ErrRateLimited, by simp, by decide⟩
      · refine ⟨GoError.ErrServerError, ?_, by decide⟩
        rw [if_neg (by omega), if_neg (by omega), if_neg (by omega), if_neg (by omega),
          if_neg (by omega), if_pos h]

/-- Status 418 is an unclassified 4xx: an `HTTPError`, not retried; 503 is retried. -/
theorem handleStatusCode_classifies_witness :
    handleStatusCode 418 "teapot" = some (GoError.HTTPError 418 "teapot") ∧
    handleStatusCode 503 "" = some GoError.ErrServerError :=
  ⟨(handleStatusCode_classifies 418 "teapot").2.2.2.2.2.2.1 (by decide),
    (handleStatusCode_classifies 503 "").2.2.2.2.2.1 (by decide)⟩

/-! ## Validation of the user ID -/

theorem TrimSpace_eq_empty_iff (s : String) :
    TrimSpace s = "" ↔ ∀ ch ∈ s.data, isSpace ch = true := by
  unfold TrimSpace
  have hmk : ∀ l : List Char, String.mk l = "" ↔ l = [] := by
    intro l
    constructor
    · intro h
      exact congrArg String.data h
    · intro h
      subst h
      rfl
  rw [hmk, List.rdropWhile_eq_nil_iff]
  constructor
  · intro h
    by_cases hd : s.data.dropWhile isSpace = []
    · exact List.dropWhile_eq_nil_iff.mp hd
    · have hnot := List.head_dropWhile_not isSpace s.data hd
      have hyes := h _ (List.head_mem hd)
      rw [hnot] at hyes
      cases hyes
  · intro h x hx
    rw [List.dropWhile_eq_nil_iff.mpr h] at hx
    cases hx

theorem validateUserID_eq_some_iff (userID : String) :
    validateUserID userID = some GoError.ErrEmptyUserID ↔
      ∀ ch ∈ userID.data, isSpace ch = true := by
  unfold validateUserID
  rw [← TrimSpace_eq_empty_iff]
  by_cases h : TrimSpace userID = "" <;> simp [h]

theorem validateUserID_eq_none_iff (userID : String) :
    validateUserID userID = none ↔ ∃ ch ∈ userID.data, isSpace ch = false := by
  have h := validateUserID_eq_some_iff userID
  unfold validateUserID at h ⊢
  by_cases hs : TrimSpace userID = ""
  · simp only [hs, if_true, true_iff] at h
    simp only [hs, if_true]
    constructor
    · intro hc
      cases hc
    · rintro ⟨ch, hm, hf⟩
      rw [h ch hm] at hf
      cases hf
  · simp only [hs, if_false, false_iff, reduceCtorEq] at h
    simp only [hs, if_false, true_iff]
    by_contra hne
    apply h
    intro ch hm
    by_contra hc
    exact hne ⟨ch, hm, by simpa using hc⟩

/-- C7: a user ID that is empty or all white space makes `Fetch` and `FetchPage`
return `ErrEmptyUserID` with no result and without starting any `fetchAllPages`
or `doRequest` (so nothing is built or sent); a user ID with a character that is
not white space passes `validateUserID`. -/
theorem blank_userID_rejected (userID : String) :
    ((∀ ch ∈ userID.data, isSpace ch = true) →
      validateUserID userID = some GoError.ErrEmptyUserID ∧
      (∀ (c : Client) (w : World) (subjType : SubjectType) (collTypes : List CollectionType),
        (Fetch c w userID subjType collTypes).out
            = Outcome.returned [] (some GoError.ErrEmptyUserID) ∧
          (Fetch c w userID subjType collTypes).runs = []) ∧
      (∀ (c : Client) (env : Env) (subjType : SubjectType) (collType : CollectionType)
          (limit offset : Int),
        (FetchPage c env userID subjType collType limit offset).val = none ∧
          (FetchPage c env userID subjType collType limit offset).err
            = some GoError.ErrEmptyUserID ∧
          (FetchPage c env userID subjType collType limit offset).run = none ∧
          (FetchPage c env userID subjType collType limit offset).panic = none)) ∧
    ((∃ ch ∈ userID.data, isSpace ch = false) → validateUserID userID = none) := by
  constructor
  · intro h
    have hv := (validateUserID_eq_some_iff userID).mpr h
    refine ⟨hv, ?_, ?_⟩
    · intro c w subjType collTypes
      simp [Fetch, hv]
    · intro c env subjType collType limit offset
      simp [FetchPage, hv]
  · intro h
    exact (validateUserID_eq_none_iff userID).mpr h

/-! ## Clamping in `FetchPage` -/

theorem clamp_eq (v : Int) : clamp v 1 pageSize = min (max v 1) 50 := by
  unfold clamp pageSize
  split_ifs <;> omega


/-! ## The retry loop -/

theorem attempts_request_cons (res : Except GoError result) (pre : List Event) (a : Nat)
    (p : fetchParams) (rest : List Event) (hpre : ∀ e ∈ pre, e.isRequest = false) :
    (DoRun.mk res (pre ++ Event.request a p :: rest)).attempts
      = (rest.filter Event.isRequest).length + 1 := by
  unfold DoRun.attempts
  simp only [List.filter_append, List.length_append]
  rw [List.filter_eq_nil_iff.mpr (by simpa using hpre)]
  simp [Event.isRequest]

theorem waited_not_request (c : Client) (a : Nat) :
    ∀ e ∈ (if a > 0 then [Event.wait a (waitTime c a)] else []), e.isRequest = false := by
  intro e he
  split_ifs at he
  · simp only [List.mem_singleton] at he
    subst he
    rfl
  · cases he

theorem doRequestLoop_succ (c : Client) (env : Env) (p : fetchParams) (n a : Nat)
    (l : Option GoError) (hctx : env.ctxDone p a = false) :
    doRequestLoop c env p (n + 1) a l =
      match doRequestOnce c env p a with
      | Except.ok r =>
        ⟨Except.ok r,
          (if a > 0 then [Event.wait a (waitTime c a)] else []) ++ [Event.request a p]⟩
      | Except.error err =>
        if isRetryable err = false then
          ⟨Except.error err,
            (if a > 0 then [Event.wait a (waitTime c a)] else []) ++ [Event.request a p]⟩
        else
          ⟨(doRequestLoop c env p n (a + 1) (some err)).res,
            (if a > 0 then [Event.wait a (waitTime c a)] else []) ++
              Event.request a p :: (doRequestLoop c env p n (a + 1) (some err)).trace⟩ := by
  rw [doRequestLoop]
  simp [hctx]

/-- The retry loop without cancellation: it stops at the first terminal outcome,
or after its last iteration. -/
theorem doRequestLoop_spec (c : Client) (env : Env) (p : fetchParams)
    (hctx : ∀ n, env.ctxDone p n = false) :
    ∀ (n a : Nat) (l : Option GoError),
      (doRequestLoop c env p n a l).attempts ≤ n ∧
      (∀ j, j < n → terminal (doRequestOnce c env p (a + j)) = true →
        (∀ i, i < j → terminal (doRequestOnce c env p (a + i)) = false) →
        (doRequestLoop c env p n a l).attempts = j + 1 ∧
          (doRequestLoop c env p n a l).res = doRequestOnce c env p (a + j)) ∧
      ((∀ i, i < n → terminal (doRequestOnce c env p (a + i)) = false) →
        (doRequestLoop c env p n a l).attempts = n ∧
          (n = 0 → (doRequestLoop c env p n a l).res = Except.error (maxRetriesExceeded l)) ∧
          (∀ m, n = m + 1 → ∃ lastErr,
            doRequestOnce c env p (a + m) = Except.error lastErr ∧
            (doRequestLoop c env p n a l).res
              = Except.error (maxRetriesExceeded (some lastErr)))) := by
  intro n
  induction n with
  | zero =>
    intro a l
    refine ⟨by simp [doRequestLoop, DoRun.attempts], ?_, ?_⟩
    · intro j hj
      omega
    · intro _
      refine ⟨by simp [doRequestLoop, DoRun.attempts], fun _ => rfl, ?_⟩
      intro m hm
      omega
  | succ n ih =>
    intro a l
    have ih1 := fun l => (ih (a + 1) l).1
    have ih2 := fun l => (ih (a + 1) l).2.1
    have ih3 := fun l => (ih (a + 1) l).2.2
    rw [doRequestLoop_succ c env p n a l (hctx a)]
    cases ho : doRequestOnce c env p a with
    | ok r =>
      have hatt : (DoRun.mk (Except.ok r)
          ((if a > 0 then [Event.wait a (waitTime c a)] else []) ++ [Event.request a p])).attempts
          = 1 := by
        rw [attempts_request_cons _ _ _ _ _ (waited_not_request c a)]
        rfl
      refine ⟨by simp only [hatt]; omega, ?_, ?_⟩
      · intro j _ _ hbefore
        have hj0 : j = 0 := by
          by_contra hne
          have := hbefore 0 (Nat.pos_of_ne_zero hne)
          rw [Nat.add_zero, ho] at this
          cases this
        subst hj0
        exact ⟨hatt, by simp [ho]⟩
      · intro hall
        have := hall 0 (Nat.succ_pos n)
        rw [Nat.add_zero, ho] at this
        cases this
    | error err =>
      by_cases hr : isRetryable err = false
      · dsimp only
        rw [if_pos hr]
        have hatt : (DoRun.mk (Except.error err)
            ((if a > 0 then [Event.wait a (waitTime c a)] else []) ++ [Event.request a p])).attempts
            = 1 := by
          rw [attempts_request_cons _ _ _ _ _ (waited_not_request c a)]
          rfl
        refine ⟨by simp only [hatt]; omega, ?_, ?_⟩
        · intro j _ _ hbefore
          have hj0 : j = 0 := by
            by_contra hne
            have := hbefore 0 (Nat.pos_of_ne_zero hne)
            rw [Nat.add_zero, ho] at this
            simp [terminal, hr] at this
          subst hj0
          exact ⟨hatt, by simp [ho]⟩
        · intro hall
          have := hall 0 (Nat.succ_pos n)
          rw [Nat.add_zero, ho] at this
          simp [terminal, hr] at this
      · dsimp only
        rw [if_neg hr]
        have hatt : (DoRun.mk (doRequestLoop c env p n (a + 1) (some err)).res
            ((if a > 0 then [Event.wait a (waitTime c a)] else []) ++
              Event.request a p :: (doRequestLoop c env p n (a + 1) (some err)).trace)).attempts
            = (doRequestLoop c env p n (a + 1) (some err)).attempts + 1 := by
          rw [attempts_request_cons _ _ _ _ _ (waited_not_request c a)]
          rfl
        have hnt : terminal (doRequestOnce c env p a) = false := by
          rw [ho]
          simpa [terminal] using hr
        refine ⟨by rw [hatt]; have := ih1 (some err); omega, ?_, ?_⟩
        · intro j hj hterm hbefore
          cases j with
          | zero =>
            rw [Nat.add_zero, hnt] at hterm
            cases hterm
          | succ j =>
            have h2 := ih2 (some err) j (by omega)
              (by rw [Nat.add_assoc, Nat.add_comm 1 j]; exact hterm)
              (fun i hi => by
                have := hbefore (i + 1) (by omega)
                rw [Nat.add_assoc, Nat.add_comm 1 i]
                exact this)
            rw [hatt]
            refine ⟨by rw [h2.1], ?_⟩
            show (doRequestLoop c env p n (a + 1) (some err)).res = _
            rw [h2.2, Nat.add_assoc, Nat.add_comm 1 j]
        · intro hall
          have h3 := ih3 (some err) (fun i hi => by
            have := hall (i + 1) (by omega)
            rw [Nat.add_assoc, Nat.add_comm 1 i]
            exact this)
          rw [hatt]
          refine ⟨by rw [h3.1], fun h => by omega, ?_⟩
          intro m hm
          have hmn : m = n := by omega
          subst hmn
          show ∃ lastErr, _ ∧ (doRequestLoop c env p m (a + 1) (some err)).res = _
          cases m with
          | zero =>
            refine ⟨err, by rw [Nat.add_zero]; exact ho, ?_⟩
            exact h3.2.1 rfl
          | succ m =>
            obtain ⟨lastErr, h1, h2⟩ := h3.2.2 m rfl
            refine ⟨lastErr, ?_, h2⟩
            rw [← h1]
            congr 1
            omega


theorem doRequestLoop_unfold (c : Client) (env : Env) (p : fetchParams) (n a : Nat)
    (l : Option GoError) :
    (doRequestLoop c env p (n + 1) a l).trace = [] ∨
      (∃ rest, (doRequestLoop c env p (n + 1) a l).trace
          = (if a > 0 then [Event.wait a (waitTime c a)] else []) ++ Event.request a p :: rest ∧
        (rest = [] ∨ ∃ err, rest = (doRequestLoop c env p n (a + 1) (some err)).trace)) := by
  rw [doRequestLoop]
  by_cases hc : a > 0 ∧ env.ctxDone p a = true
  · left
    rw [if_pos hc]
  · right
    rw [if_neg hc]
    cases doRequestOnce c env p a with
    | ok r => exact ⟨[], rfl, Or.inl rfl⟩
    | error err =>
      dsimp only
      by_cases hr : isRetryable err = false
      · rw [if_pos hr]
        exact ⟨[], rfl, Or.inl rfl⟩
      · rw [if_neg hr]
        exact ⟨_, rfl, Or.inr ⟨err, rfl⟩⟩

/-- Every event of the loop is a request with the parameters of the call, or a
wait of `waitTime` before a retry. -/
theorem doRequestLoop_events (c : Client) (env : Env) (p : fetchParams) :
    ∀ (n a : Nat) (l : Option GoError) (e : Event),
      e ∈ (doRequestLoop c env p n a l).trace →
        (∃ k, a ≤ k ∧ e = Event.request k p) ∨
          (∃ k, a ≤ k ∧ 1 ≤ k ∧ e = Event.wait k (waitTime c k)) := by
  intro n
  induction n with
  | zero =>
    intro a l e he
    simp [doRequestLoop] at he
  | succ n ih =>
    intro a l e he
    rcases doRequestLoop_unfold c env p n a l with h | ⟨rest, h, hrest⟩
    · rw [h] at he
      cases he
    · rw [h, List.mem_append, List.mem_cons] at he
      rcases he with he | he | he
      · split_ifs at he with ha
        · simp only [List.mem_singleton] at he
          exact Or.inr ⟨a, le_refl a, ha, he⟩
        · cases he
      · exact Or.inl ⟨a, le_refl a, he⟩
      · rcases hrest with hrest | ⟨err, hrest⟩
        · rw [hrest] at he
          cases he
        · rw [hrest] at he
          rcases ih (a + 1) (some err) e he with ⟨k, hk, hek⟩ | ⟨k, hk, hk1, hek⟩
          · exact Or.inl ⟨k, by omega, hek⟩
          · exact Or.inr ⟨k, by omega, hk1, hek⟩

/-- A retry is immediately preceded by its wait. -/
theorem doRequestLoop_wait_before (c : Client) (env : Env) (p : fetchParams) :
    ∀ (n a : Nat) (l : Option GoError) (k : Nat), 1 ≤ k →
      Event.request k p ∈ (doRequestLoop c env p n a l).trace →
        [Event.wait k (waitTime c k), Event.request k p]
          <:+: (doRequestLoop c env p n a l).trace := by
  intro n
  induction n with
  | zero =>
    intro a l k _ he
    simp [doRequestLoop] at he
  | succ n ih =>
    intro a l k hk he
    rcases doRequestLoop_unfold c env p n a l with h | ⟨rest, h, hrest⟩
    · rw [h] at he
      cases he
    · rw [h] at he ⊢
      rw [List.mem_append, List.mem_cons] at he
      rcases he with he | he | he
      · split_ifs at he with ha
        · simp at he
        · cases he
      · have hka : k = a := by
          injection he
        subst hka
        rw [if_pos (by omega)]
        exact ⟨[], rest, by simp⟩
      · rcases hrest with hrest | ⟨err, hrest⟩
        · rw [hrest] at he
          cases he
        · rw [hrest] at he ⊢
          obtain ⟨s, t, hst⟩ := ih (a + 1) (some err) k hk he
          refine ⟨(if a > 0 then [Event.wait a (waitTime c a)] else []) ++ Event.request a p :: s,
            t, ?_⟩
          rw [← hst]
          simp

/-- Without cancellation, attempt `a + j` is made as soon as the `j` outcomes
before it are retryable errors. -/
theorem doRequestLoop_request_mem (c : Client) (env : Env) (p : fetchParams)
    (hctx : ∀ n, env.ctxDone p n = false) :
    ∀ (n a : Nat) (l : Option GoError) (j : Nat), j < n →
      (∀ i, i < j → terminal (doRequestOnce c env p (a + i)) = false) →
        Event.request (a + j) p ∈ (doRequestLoop c env p n a l).trace := by
  intro n
  induction n with
  | zero =>
    intro a l j hj
    omega
  | succ n ih =>
    intro a l j hj hbefore
    rw [doRequestLoop_succ c env p n a l (hctx a)]
    cases j with
    | zero =>
      cases doRequestOnce c env p a with
      | ok r => simp
      | error err =>
        dsimp only
        split_ifs <;> simp
    | succ j =>
      have h0 := hbefore 0 (Nat.succ_pos j)
      rw [Nat.add_zero] at h0
      cases ho : doRequestOnce c env p a with
      | ok r =>
        rw [ho] at h0
        cases h0
      | error err =>
        rw [ho] at h0
        have hr : ¬ isRetryable err = false := by
          simpa [terminal] using h0
        dsimp only
        rw [if_neg hr]
        have := ih (a + 1) (some err) j (by omega) (fun i hi => by
          have := hbefore (i + 1) (by omega)
          rw [Nat.add_assoc, Nat.add_comm 1 i]
          exact this)
        rw [Nat.add_assoc, Nat.add_comm 1 j] at this
        simp only [List.mem_append, List.mem_cons]
        exact Or.inr (Or.inr this)

theorem wrap64_of_fits (x : Int) (h1 : -(2 ^ 63) ≤ x) (h2 : x < 2 ^ 63) : wrap64 x = x := by
  unfold wrap64
  omega

/-- The back-off is exact as long as the product fits a 64-bit duration. -/
theorem waitTime_of_fits (c : Client) (k : Nat) (hpos : 0 < c.retryInterval)
    (hfit : c.retryInterval * 2 ^ (k - 1) < 2 ^ 63) :
    waitTime c k = c.retryInterval * 2 ^ (k - 1) := by
  unfold waitTime shl64
  have hp : (0 : Int) < 2 ^ (k - 1) := by positivity
  have hle : (2 : Int) ^ (k - 1) ≤ c.retryInterval * 2 ^ (k - 1) := by nlinarith
  rw [one_mul, wrap64_of_fits (2 ^ (k - 1)) (by linarith) (by linarith)]
  exact wrap64_of_fits _ (by nlinarith) hfit

theorem doRequest_first_request (c : Client) (env : Env) (p : fetchParams)
    (hmax : 0 ≤ c.maxRetries) : Event.request 0 p ∈ (doRequest c env p).trace := by
  unfold doRequest
  obtain ⟨m, hm⟩ : ∃ m, (c.maxRetries + 1).toNat = m + 1 := ⟨c.maxRetries.toNat, by omega⟩
  rw [hm, doRequestLoop, if_neg (by simp)]
  cases doRequestOnce c env p 0 with
  | ok r => simp
  | error err =>
    dsimp only
    split_ifs <;> simp

theorem buildRequest_error (c : Client) (env : Env) (p : fetchParams) (err : GoError)
    (h : buildRequest c env p = Except.error err) : ∃ msg, err = GoError.external msg := by
  unfold buildRequest at h
  cases hp : env.parseURL (baseURL p.UserID) with
  | some msg =>
    simp only [hp] at h
    cases h
    exact ⟨msg, rfl⟩
  | none =>
    simp only [hp] at h
    cases h

theorem doRequestOnce_error_retryable (c : Client) (env : Env) (p : fetchParams) (n : Nat)
    (err : GoError) (h : doRequestOnce c env p n = Except.error err) :
    isRetryable err = true ↔
      err = GoError.ErrRateLimited ∨ err = GoError.ErrServerError ∨
        ∃ cause, err = GoError.NetworkError cause := by
  rw [isRetryable_iff]
  constructor
  · rintro (h1 | h1 | h1)
    · exact Or.inl h1
    · exact Or.inr (Or.inl h1)
    · right
      right
      unfold doRequestOnce at h
      split at h
      next e hb =>
        cases h
        obtain ⟨msg, hmsg⟩ := buildRequest_error c env p _ hb
        subst hmsg
        simp [asNetworkError] at h1
      next req hb =>
        split at h
        next cause _ =>
          cases h
          exact ⟨cause, rfl⟩
        next cause _ =>
          cases h
          exact ⟨cause, rfl⟩
        next statusCode body _ =>
          split at h
          next e hs =>
            cases h
            unfold handleStatusCode at hs
            split_ifs at hs <;> cases hs <;> simp [asNetworkError] at h1
          next hs =>
            split at h
            next msg _ =>
              cases h
              simp [asNetworkError] at h1
            next r _ => cases h
  · rintro (h1 | h1 | ⟨cause, h1⟩)
    · exact Or.inl h1
    · exact Or.inr (Or.inl h1)
    · subst h1
      exact Or.inr (Or.inr rfl)

/-- C3: without cancellation and with `maxRetries ≥ 0`, `doRequest` makes at most
`maxRetries + 1` attempts; it stops at the first attempt whose outcome is a
success or an error that is not retryable and returns that outcome unchanged, so
a first outcome that is a non-retryable error gives exactly one attempt; when
every outcome is a retryable error it makes exactly `maxRetries + 1` attempts
and returns "max retries exceeded" wrapping the last error. The retryable errors
of an attempt are `ErrRateLimited`, `ErrServerError` and `NetworkError`. -/
theorem doRequest_attempt_count (c : Client) (env : Env) (p : fetchParams)
    (hmax : 0 ≤ c.maxRetries) (hctx : ∀ n, env.ctxDone p n = false) :
    (doRequest c env p).attempts ≤ c.maxRetries.toNat + 1 ∧
    (∀ j, j ≤ c.maxRetries.toNat → terminal (doRequestOnce c env p j) = true →
      (∀ i, i < j → terminal (doRequestOnce c env p i) = false) →
      (doRequest c env p).attempts = j + 1 ∧
        (doRequest c env p).res = doRequestOnce c env p j) ∧
    (∀ err, doRequestOnce c env p 0 = Except.error err → isRetryable err = false →
      (doRequest c env p).attempts = 1 ∧ (doRequest c env p).res = Except.error err) ∧
    ((∀ i, i ≤ c.maxRetries.toNat → terminal (doRequestOnce c env p i) = false) →
      (doRequest c env p).attempts = c.maxRetries.toNat + 1 ∧
        ∃ lastErr, doRequestOnce c env p c.maxRetries.toNat = Except.error lastErr ∧
          (doRequest c env p).res
            = Except.error (GoError.Errorf "max retries exceeded: " lastErr)) ∧
    (∀ n err, doRequestOnce c env p n = Except.error err →
      (terminal (Except.error err) = false ↔
        err = GoError.ErrRateLimited ∨ err = GoError.ErrServerError ∨
          ∃ cause, err = GoError.NetworkError cause)) := by
  have hn : (c.maxRetries + 1).toNat = c.maxRetries.toNat + 1 := by omega
  have hspec := doRequestLoop_spec c env p hctx (c.maxRetries.toNat + 1) 0 none
  unfold doRequest
  rw [hn]
  simp only [Nat.zero_add] at hspec
  obtain ⟨h1, h2, h3⟩ := hspec
  refine ⟨h1, ?_, ?_, ?_, ?_⟩
  · intro j hj hterm hbefore
    exact h2 j (by omega) hterm hbefore
  · intro err ho hr
    have := h2 0 (by omega) (by rw [ho]; simp [terminal, hr]) (fun i hi => by omega)
    rw [ho] at this
    exact this
  · intro hall
    obtain ⟨ha, _, hm⟩ := h3 (fun i hi => hall i (by omega))
    exact ⟨ha, hm c.maxRetries.toNat rfl⟩
  · intro n err ho
    rw [← doRequestOnce_error_retryable c env p n err ho]
    simp [terminal]

/-- The default client (3 retries) against a transport that always answers 429
and a context that is never done: at most four attempts. -/
theorem doRequest_attempt_count_witness :
    (0 : Int) ≤ (NewClient "ua").maxRetries ∧
    (∀ n, (constEnv 429 (emptyPage 0)).ctxDone sampleParams n = false) ∧
    (doRequest (NewClient "ua") (constEnv 429 (emptyPage 0)) sampleParams).attempts
      ≤ (NewClient "ua").maxRetries.toNat + 1 :=
  ⟨by decide, fun _ => rfl,
    (doRequest_attempt_count (NewClient "ua") (constEnv 429 (emptyPage 0)) sampleParams
      (by decide) (fun _ => rfl)).1⟩

/-- C5 (amended): without cancellation, for `maxRetries ≥ 0`, a positive
`retryInterval` and `1 ≤ k ≤ maxRetries` with `retryInterval × 2^(k-1) < 2^63`,
when the `k` outcomes before attempt `k` are retryable errors, attempt `k` is
made and is immediately preceded by a wait of exactly `retryInterval × 2^(k-1)`,
the only wait recorded for it; and no wait is ever recorded for attempt 0. -/
theorem doRequest_backoff (c : Client) (env : Env) (p : fetchParams) (k : Nat)
    (hmax : 0 ≤ c.maxRetries) (hpos : 0 < c.retryInterval)
    (hk1 : 1 ≤ k) (hk2 : (k : Int) ≤ c.maxRetries)
    (hfit : c.retryInterval * 2 ^ (k - 1) < 2 ^ 63)
    (hctx : ∀ n, env.ctxDone p n = false)
    (hretry : ∀ i, i < k → terminal (doRequestOnce c env p i) = false) :
    [Event.wait k (c.retryInterval * 2 ^ (k - 1)), Event.request k p]
        <:+: (doRequest c env p).trace ∧
    (∀ d, Event.wait k d ∈ (doRequest c env p).trace → d = c.retryInterval * 2 ^ (k - 1)) ∧
    (∀ d, Event.wait 0 d ∉ (doRequest c env p).trace) := by
  have hmem : Event.request k p ∈ (doRequest c env p).trace := by
    have := doRequestLoop_request_mem c env p hctx (c.maxRetries + 1).toNat 0 none k
      (by omega) (by simpa using hretry)
    simpa [doRequest] using this
  have hw := doRequestLoop_wait_before c env p (c.maxRetries + 1).toNat 0 none k hk1 hmem
  rw [waitTime_of_fits c k hpos hfit] at hw
  refine ⟨hw, ?_, ?_⟩
  · intro d hd
    rcases doRequestLoop_events c env p _ 0 none _ hd with ⟨j, _, hj⟩ | ⟨j, _, _, hj⟩
    · cases hj
    · injection hj with hjk hjd
      subst hjk
      rw [hjd, waitTime_of_fits c k hpos hfit]
  · intro d hd
    rcases doRequestLoop_events c env p _ 0 none _ hd with ⟨j, _, hj⟩ | ⟨j, _, hj1, hj⟩
    · cases hj
    · injection hj with hjk hjd
      omega

theorem constEnv_500_not_terminal (c : Client) (r : result) (p : fetchParams) (i : Nat) :
    terminal (doRequestOnce c (constEnv 500 r) p i) = false := by
  simp [doRequestOnce, buildRequest, constEnv, handleStatusCode, StatusOK, StatusNotFound,
    StatusUnauthorized, StatusForbidden, StatusTooManyRequests, terminal, isRetryable]

/-- With the default interval of one second and a server that keeps answering
500, the wait before the second retry is two seconds. -/
theorem doRequest_backoff_witness :
    [Event.wait 2 (client35.retryInterval * 2 ^ (2 - 1)), Event.request 2 sampleParams]
      <:+: (doRequest client35 (constEnv 500 (emptyPage 0)) sampleParams).trace :=
  (doRequest_backoff client35 (constEnv 500 (emptyPage 0)) sampleParams 2
    (by decide) (by decide) (by decide) (by decide) (by decide) (fun _ => rfl)
    (fun i _ => constEnv_500_not_terminal client35 (emptyPage 0) sampleParams i)).1

/-- C5 fails as stated: with the default interval of one second (10^9 ns), 35
retries and a server that keeps answering 500, the duration computed for the
wait before attempt 35 has wrapped around to a negative value, not 10^9 × 2^34. -/
theorem doRequest_backoff_overflows :
    client35.maxRetries = 35 ∧ client35.retryInterval = 1000000000 ∧
    Event.wait 35 (-1266874889709551616)
      ∈ (doRequest client35 (constEnv 500 (emptyPage 0)) sampleParams).trace ∧
    ¬ (∀ d, Event.wait 35 d
        ∈ (doRequest client35 (constEnv 500 (emptyPage 0)) sampleParams).trace →
      d = client35.retryInterval * 2 ^ (35 - 1)) := by
  have hmem : Event.request 35 sampleParams
      ∈ (doRequest client35 (constEnv 500 (emptyPage 0)) sampleParams).trace := by
    have := doRequestLoop_request_mem client35 (constEnv 500 (emptyPage 0)) sampleParams
      (fun _ => rfl) (client35.maxRetries + 1).toNat 0 none 35 (by decide)
      (fun i _ => by
        rw [Nat.zero_add]
        exact constEnv_500_not_terminal client35 (emptyPage 0) sampleParams i)
    simpa [doRequest] using this
  have hw := doRequestLoop_wait_before client35 (constEnv 500 (emptyPage 0)) sampleParams
    (client35.maxRetries + 1).toNat 0 none 35 (by decide) hmem
  have hval : waitTime client35 35 = -1266874889709551616 := by decide
  rw [hval] at hw
  have hin : Event.wait 35 (-1266874889709551616)
      ∈ (doRequest client35 (constEnv 500 (emptyPage 0)) sampleParams).trace :=
    hw.subset (by simp)
  refine ⟨by decide, by decide, hin, ?_⟩
  intro hall
  have := hall _ hin
  revert this
  decide

theorem doRequest_request_params (c : Client) (env : Env) (p : fetchParams) (k : Nat)
    (q : fetchParams) (h : Event.request k q ∈ (doRequest c env p).trace) : q = p := by
  rcases doRequestLoop_events c env p _ 0 none _ h with ⟨j, _, hj⟩ | ⟨j, _, _, hj⟩
  · injection hj
  · cases hj

theorem FetchPage_run (c : Client) (env : Env) (userID : String) (subjType : SubjectType)
    (collType : CollectionType) (limit offset : Int) (hv : validateUserID userID = none) :
    (FetchPage c env userID subjType collType limit offset).run
      = some (doRequest c env (fetchPageParams userID subjType collType limit offset)) := by
  unfold FetchPage
  simp only [hv]
  cases (doRequest c env (fetchPageParams userID subjType collType limit offset)).res with
  | error err => rfl
  | ok r =>
    dsimp only
    cases r.toSubjects <;> rfl

/-- C8: `FetchPage` asks for `limit' = min (max limit 1) 50` and
`offset' = max offset 0`: `limit'` lies in `[1, 50]`, `offset'` is at least 0,
values already in range are unchanged, limit 0 becomes 1, limit 999 becomes 50,
offset -5 becomes 0; every attempt of the call carries these parameters, and so
does the request built from them; and an attempt is made once the user ID is valid. -/
theorem FetchPage_clamps (c : Client) (env : Env) (userID : String) (subjType : SubjectType)
    (collType : CollectionType) (limit offset : Int) :
    (fetchPageParams userID subjType collType limit offset).Limit = min (max limit 1) 50 ∧
    (fetchPageParams userID subjType collType limit offset).Offset = max offset 0 ∧
    1 ≤ (fetchPageParams userID subjType collType limit offset).Limit ∧
    (fetchPageParams userID subjType collType limit offset).Limit ≤ 50 ∧
    0 ≤ (fetchPageParams userID subjType collType limit offset).Offset ∧
    (1 ≤ limit ∧ limit ≤ 50 →
      (fetchPageParams userID subjType collType limit offset).Limit = limit) ∧
    (0 ≤ offset → (fetchPageParams userID subjType collType limit offset).Offset = offset) ∧
    (fetchPageParams userID subjType collType 0 offset).Limit = 1 ∧
    (fetchPageParams userID subjType collType 999 offset).Limit = 50 ∧
    (fetchPageParams userID subjType collType limit (-5)).Offset = 0 ∧
    (∀ run, (FetchPage c env userID subjType collType limit offset).run = some run →
      ∀ k q, Event.request k q ∈ run.trace →
        q = fetchPageParams userID subjType collType limit offset ∧
        ∀ req, buildRequest c env q = Except.ok req →
          req.limit = min (max limit 1) 50 ∧ req.offset = max offset 0) ∧
    (validateUserID userID = none → 0 ≤ c.maxRetries →
      ∃ run, (FetchPage c env userID subjType collType limit offset).run = some run ∧
        Event.request 0 (fetchPageParams userID subjType collType limit offset) ∈ run.trace) := by
  have hl : (fetchPageParams userID subjType collType limit offset).Limit
      = min (max limit 1) 50 := clamp_eq limit
  have ho : (fetchPageParams userID subjType collType limit offset).Offset = max offset 0 := rfl
  refine ⟨hl, ho, by rw [hl]; omega, by rw [hl]; omega, by rw [ho]; omega,
    fun h => by rw [hl]; omega, fun h => by rw [ho]; omega,
    by simp [fetchPageParams, clamp, pageSize], by simp [fetchPageParams, clamp, pageSize],
    by simp [fetchPageParams],
    ?_, ?_⟩
  · intro run hrun k q hq
    have hrun2 : run = doRequest c env (fetchPageParams userID subjType collType limit offset) := by
      cases hv : validateUserID userID with
      | some err =>
        unfold FetchPage at hrun
        simp only [hv] at hrun
        cases hrun
      | none =>
        rw [FetchPage_run c env userID subjType collType limit offset hv] at hrun
        injection hrun with hrun
        exact hrun.symm
    subst hrun2
    have hqp := doRequest_request_params c env _ k q hq
    subst hqp
    refine ⟨rfl, ?_⟩
    intro req hreq
    unfold buildRequest at hreq
    cases hp : env.parseURL (baseURL (fetchPageParams userID subjType collType limit offset).UserID) with
    | some msg =>
      simp only [hp] at hreq
      cases hreq
    | none =>
      simp only [hp] at hreq
      injection hreq with hreq
      subst hreq
      exact ⟨hl, ho⟩
  · intro hv hmax
    exact ⟨doRequest c env (fetchPageParams userID subjType collType limit offset),
      FetchPage_run c env userID subjType collType limit offset hv,
      doRequest_first_request c env _ hmax⟩

/-! ## Pagination -/

theorem toSubjectsLoop_eq_none_iff (l : List (Option collection)) :
    ∀ acc : List Subject, toSubjectsLoop acc l = none ↔ none ∈ l := by
  induction l with
  | nil =>
    intro acc
    simp [toSubjectsLoop]
  | cons d rest ih =>
    intro acc
    cases d with
    | none => simp [toSubjectsLoop]
    | some item => simp [toSubjectsLoop, ih]

theorem toSubjectsLoop_length (l : List (Option collection)) :
    ∀ (acc s : List Subject), toSubjectsLoop acc l = some s → s.length = acc.length + l.length := by
  induction l with
  | nil =>
    intro acc s h
    simp only [toSubjectsLoop, Option.some.injEq] at h
    simp [h]
  | cons d rest ih =>
    intro acc s h
    cases d with
    | none => simp [toSubjectsLoop] at h
    | some item =>
      simp only [toSubjectsLoop] at h
      rw [ih _ _ h]
      simp only [List.length_append, List.length_cons, List.length_nil]
      omega

/-- `toSubjects` returns, with one subject per datum, exactly when no datum is nil. -/
theorem toSubjects_of_no_nil (r : result) (h : ∀ d ∈ r.Data, d ≠ none) :
    ∃ s, r.toSubjects = some s ∧ s.length = r.Data.length := by
  cases hs : r.toSubjects with
  | none =>
    have := (toSubjectsLoop_eq_none_iff r.Data []).mp hs
    exact absurd rfl (h none this)
  | some s =>
    refine ⟨s, rfl, ?_⟩
    have := toSubjectsLoop_length r.Data [] s hs
    simpa using this

theorem toSubjects_eq_none_iff (r : result) : r.toSubjects = none ↔ none ∈ r.Data :=
  toSubjectsLoop_eq_none_iff r.Data []

theorem pageLoop_eq_aux (total : Int) :
    ∀ (n : Nat) (offset : Int), ((total - offset).toNat + 49) / 50 = n →
      pageLoop total offset = (List.range n).map fun (k : Nat) => offset + 50 * (k : Int) := by
  intro n
  induction n with
  | zero =>
    intro offset h
    rw [pageLoop, if_neg (by omega)]
    rfl
  | succ n ih =>
    intro offset h
    rw [pageLoop, if_pos (by omega), ih (offset + pageSize) (by simp only [pageSize]; omega),
      List.range_succ_eq_map]
    simp only [List.map_cons, List.map_map, pageSize]
    congr 1
    · simp
    · apply List.map_congr_left
      intro k _
      simp only [Function.comp]
      push_cast
      ring

/-- The loop of `fetchAllPages` visits the offsets `0, 50, 100, ...` below `total`. -/
theorem pageLoop_eq (total : Int) :
    pageLoop total 0 = (List.range ((total.toNat + 49) / 50)).map fun (k : Nat) => 50 * (k : Int) := by
  rw [pageLoop_eq_aux total ((total.toNat + 49) / 50) 0 (by simp)]
  apply List.map_congr_left
  intro k _
  simp

/-- For a total of at most `2^63 - 50` the 64-bit counter `offset += pageSize`
never wraps around: the loop of the model is the loop of the code. -/
theorem pageLoop_no_wrap (total : Int) (h : total + pageSize ≤ 2 ^ 63) :
    ∀ offset ∈ pageLoop total 0, wrap64 (offset + pageSize) = offset + pageSize := by
  intro offset hmem
  rw [pageLoop_eq, List.mem_map] at hmem
  obtain ⟨k, hk, rfl⟩ := hmem
  rw [List.mem_range] at hk
  simp only [pageSize] at h ⊢
  exact wrap64_of_fits _ (by omega) (by omega)

theorem insertAt_perm {α : Type} (x : α) : ∀ (k : Nat) (l : List α), (insertAt x k l).Perm (x :: l)
  | 0, l => List.Perm.refl _
  | _ + 1, [] => List.Perm.refl _
  | k + 1, y :: l => by
    simp only [insertAt]
    exact ((insertAt_perm x k l).cons y).trans (List.Perm.swap x y l)

/-- Whatever the scheduler does, the goroutines that complete are those started. -/
theorem completionOrder_perm {α : Type} (sched : Nat → Nat) :
    ∀ l : List α, (completionOrder sched l).Perm l
  | [] => List.Perm.refl _
  | x :: xs => by
    simp only [completionOrder]
    exact (insertAt_perm x _ _).trans ((completionOrder_perm sched xs).cons x)

theorem insertAt_eraseIdx {α : Type} :
    ∀ (l : List α) (k : Nat) (h : k < l.length), insertAt (l.get ⟨k, h⟩) k (l.eraseIdx k) = l
  | [], _, h => by simp at h
  | _ :: _, 0, _ => rfl
  | y :: l, k + 1, h => by
    simp only [List.eraseIdx_cons_succ, insertAt, List.get_cons_succ]
    rw [insertAt_eraseIdx l k (by simpa using h)]

theorem completionOrder_congr {α : Type} (s1 s2 : Nat → Nat) :
    ∀ l : List α, (∀ n, n < l.length → s1 n = s2 n) →
      completionOrder s1 l = completionOrder s2 l
  | [], _ => rfl
  | x :: xs, h => by
    simp only [completionOrder]
    rw [h xs.length (by simp), completionOrder_congr s1 s2 xs (fun n hn =>
      h n (by simp only [List.length_cons]; omega))]

/-- Every arrangement of the started goroutines is the completion order of some scheduler. -/
theorem completionOrder_surjective {α : Type} :
    ∀ (l l2 : List α), l2.Perm l → ∃ sched, completionOrder sched l = l2 := by
  intro l
  induction l with
  | nil =>
    intro l2 h
    exact ⟨id, by rw [h.eq_nil]; rfl⟩
  | cons x xs ih =>
    intro l2 h
    have hx : x ∈ l2 := h.symm.subset (List.mem_cons_self x xs)
    obtain ⟨⟨k, hk⟩, hget⟩ := List.get_of_mem hx
    have hins := insertAt_eraseIdx l2 k hk
    rw [hget] at hins
    have hperm : (l2.eraseIdx k).Perm xs := by
      have h1 : (x :: l2.eraseIdx k).Perm l2 := by
        have := insertAt_perm x k (l2.eraseIdx k)
        rw [hins] at this
        exact this.symm
      exact (h1.trans h).cons_inv
    obtain ⟨sched, hs⟩ := ih (l2.eraseIdx k) hperm
    refine ⟨fun n => if n = xs.length then k else sched n, ?_⟩
    simp only [completionOrder, if_true]
    rw [completionOrder_congr _ sched xs (fun n hn => by rw [if_neg (by omega)]), hs, hins]

theorem firstError_eq_none_iff (l : List (Option GoError)) :
    firstError l = none ↔ ∀ e ∈ l, e = none := by
  induction l with
  | nil => simp [firstError]
  | cons x xs ih =>
    cases x with
    | none => simp [firstError, ih]
    | some err => simp [firstError]

theorem firstError_mem (l : List (Option GoError)) (err : GoError)
    (h : firstError l = some err) : some err ∈ l := by
  induction l with
  | nil => simp [firstError] at h
  | cons x xs ih =>
    cases x with
    | none =>
      simp only [firstError] at h
      exact List.mem_cons_of_mem _ (ih h)
    | some e =>
      simp only [firstError] at h
      rw [h]
      exact List.mem_cons_self _ _

theorem panicIndex_eq_none_iff {α : Type} (l : List (Outcome α)) :
    panicIndex l = none ↔ ∀ o ∈ l, o.isPanic = false := by
  induction l with
  | nil => simp [panicIndex]
  | cons o rest ih =>
    cases o with
    | returned val err => simp [panicIndex, Outcome.isPanic, ih]
    | panicked msg => simp [panicIndex, Outcome.isPanic]

theorem panicMessage_eq_none_iff {α : Type} (l : List (Outcome α)) :
    panicMessage l = none ↔ ∀ o ∈ l, o.isPanic = false := by
  induction l with
  | nil => simp [panicMessage]
  | cons o rest ih =>
    cases o with
    | returned val err => simp [panicMessage, Outcome.isPanic, ih]
    | panicked msg => simp [panicMessage, Outcome.isPanic]

/-- The goroutine of a page panics exactly when its fetch succeeded with a
response that holds a nil datum. -/
theorem pageGoroutine_isPanic_iff (run : DoRun) :
    (pageGoroutine run).isPanic = true ↔ ∃ r, run.res = Except.ok r ∧ none ∈ r.Data := by
  unfold pageGoroutine
  cases hres : run.res with
  | error err => simp [Outcome.isPanic]
  | ok r =>
    dsimp only
    cases hs : r.toSubjects with
    | none =>
      simp only [Outcome.isPanic, true_iff]
      exact ⟨r, rfl, (toSubjects_eq_none_iff r).mp hs⟩
    | some s =>
      simp only [Outcome.isPanic, Bool.false_eq_true, false_iff]
      rintro ⟨r2, hr2, hn⟩
      cases hr2
      rw [(toSubjects_eq_none_iff r).mpr hn] at hs
      cases hs

theorem pageGoroutine_items (run : DoRun) (r : result) (s : List Subject)
    (hres : run.res = Except.ok r) (hs : r.toSubjects = some s) :
    (pageGoroutine run).items = s := by
  unfold pageGoroutine
  rw [hres]
  dsimp only
  rw [hs]
  rfl

/-- `make` succeeds exactly for a capacity from 0 to `maxAlloc / ptrSize` that the
runtime has the memory for. -/
theorem makeSubjects_eq_ok_iff (env : Env) (capacity : Int) (subjects : List Subject) :
    makeSubjects env capacity = Except.ok subjects ↔
      subjects = [] ∧ 0 ≤ capacity ∧ ptrSize * capacity ≤ maxAlloc ∧
        env.granted (ptrSize * capacity) = true := by
  unfold makeSubjects
  by_cases h1 : capacity < 0 ∨ ptrSize * capacity > maxAlloc
  · rw [if_pos h1]
    constructor
    · intro h
      cases h
    · rintro ⟨_, h2, h3, _⟩
      rcases h1 with h1 | h1 <;> omega
  · rw [if_neg h1]
    by_cases h2 : env.granted (ptrSize * capacity) = false
    · rw [if_pos h2]
      constructor
      · intro h
        cases h
      · rintro ⟨_, _, _, h3⟩
        rw [h2] at h3
        cases h3
    · rw [if_neg h2]
      constructor
      · intro h
        cases h
        refine ⟨rfl, by omega, by omega, by simpa using h2⟩
      · rintro ⟨h3, _⟩
        rw [h3]

theorem fetchAllPages_probe_error (c : Client) (env : Env) (sched : Nat → Nat) (p : fetchParams)
    (err : GoError) (h : (doRequest c env { p with Limit := 1 }).res = Except.error err) :
    fetchAllPages c env sched p
      = ⟨Outcome.returned [] (some err), doRequest c env { p with Limit := 1 }, []⟩ := by
  unfold fetchAllPages
  simp only [h]

theorem fetchAllPages_zero (c : Client) (env : Env) (sched : Nat → Nat) (p : fetchParams)
    (firstPage : result) (h : (doRequest c env { p with Limit := 1 }).res = Except.ok firstPage)
    (h0 : firstPage.Total = 0) :
    fetchAllPages c env sched p
      = ⟨Outcome.returned [] none, doRequest c env { p with Limit := 1 }, []⟩ := by
  unfold fetchAllPages
  simp only [h, h0, if_true]

/-- A total that `make` refuses: the call ends there, before any page fetch. -/
theorem fetchAllPages_make_fails (c : Client) (env : Env) (sched : Nat → Nat) (p : fetchParams)
    (firstPage : result) (msg : String)
    (h : (doRequest c env { p with Limit := 1 }).res = Except.ok firstPage)
    (h0 : firstPage.Total ≠ 0) (hm : makeSubjects env firstPage.Total = Except.error msg) :
    fetchAllPages c env sched p
      = ⟨Outcome.panicked msg, doRequest c env { p with Limit := 1 }, []⟩ := by
  unfold fetchAllPages
  simp only [h]
  rw [if_neg h0]
  simp only [hm]

theorem fetchAllPages_negative (c : Client) (env : Env) (sched : Nat → Nat) (p : fetchParams)
    (firstPage : result) (h : (doRequest c env { p with Limit := 1 }).res = Except.ok firstPage)
    (h0 : firstPage.Total < 0) :
    fetchAllPages c env sched p
      = ⟨Outcome.panicked "makeslice: cap out of range",
          doRequest c env { p with Limit := 1 }, []⟩ :=
  fetchAllPages_make_fails c env sched p firstPage _ h (by omega)
    (by unfold makeSubjects; rw [if_pos (Or.inl h0)])

/-- After a successful `make`: the page goroutines are started and the call
ends with their first panic, their first error, or their items. -/
theorem fetchAllPages_started (c : Client) (env : Env) (sched : Nat → Nat) (p : fetchParams)
    (firstPage : result) (subjects : List Subject)
    (h : (doRequest c env { p with Limit := 1 }).res = Except.ok firstPage)
    (h0 : firstPage.Total ≠ 0) (hm : makeSubjects env firstPage.Total = Except.ok subjects) :
    fetchAllPages c env sched p
      = match panicIndex ((pageRuns c env p firstPage.Total).map fun pg => pageGoroutine pg.2) with
        | some i =>
          ⟨Outcome.panicked "invalid memory address or nil pointer dereference",
            doRequest c env { p with Limit := 1 },
            (pageRuns c env p firstPage.Total).take
              (i + 1 + sched (pageRuns c env p firstPage.Total).length)⟩
        | none =>
          match firstError ((completionOrder sched (pageRuns c env p firstPage.Total)).map
              fun d => d.2.err) with
          | some err =>
            ⟨Outcome.returned [] (some err), doRequest c env { p with Limit := 1 },
              pageRuns c env p firstPage.Total⟩
          | none =>
            ⟨Outcome.returned
                ((completionOrder sched (pageRuns c env p firstPage.Total)).flatMap
                  fun d => (pageGoroutine d.2).items) none,
              doRequest c env { p with Limit := 1 }, pageRuns c env p firstPage.Total⟩ := by
  have hs : subjects = [] := ((makeSubjects_eq_ok_iff env _ subjects).mp hm).1
  subst hs
  unfold fetchAllPages
  simp only [h]
  rw [if_neg h0]
  simp only [hm, List.nil_append]

/-- No page goroutine panics: all pages are started and the call returns. -/
theorem fetchAllPages_positive (c : Client) (env : Env) (sched : Nat → Nat) (p : fetchParams)
    (firstPage : result) (subjects : List Subject)
    (h : (doRequest c env { p with Limit := 1 }).res = Except.ok firstPage)
    (h0 : firstPage.Total ≠ 0) (hm : makeSubjects env firstPage.Total = Except.ok subjects)
    (hnp : ∀ pg ∈ pageRuns c env p firstPage.Total, (pageGoroutine pg.2).isPanic = false) :
    (fetchAllPages c env sched p).probe = doRequest c env { p with Limit := 1 } ∧
    (fetchAllPages c env sched p).pages = pageRuns c env p firstPage.Total ∧
    ((fetchAllPages c env sched p).out
      = match firstError ((completionOrder sched (fetchAllPages c env sched p).pages).map
          fun d => d.2.err) with
        | some err => Outcome.returned [] (some err)
        | none => Outcome.returned
            ((completionOrder sched (fetchAllPages c env sched p).pages).flatMap
              fun d => (pageGoroutine d.2).items) none) ∧
    (fetchAllPages c env sched p).out.isPanic = false := by
  have hpi : panicIndex ((pageRuns c env p firstPage.Total).map fun pg => pageGoroutine pg.2)
      = none := by
    rw [panicIndex_eq_none_iff]
    intro o ho
    rw [List.mem_map] at ho
    obtain ⟨pg, hpg, rfl⟩ := ho
    exact hnp pg hpg
  have hfull := fetchAllPages_started c env sched p firstPage subjects h h0 hm
  simp only [hpi] at hfull
  cases hfe : firstError ((completionOrder sched (pageRuns c env p firstPage.Total)).map
    fun d => d.2.err) with
  | some err =>
    rw [hfe] at hfull
    rw [hfull]
    dsimp only
    rw [hfe]
    exact ⟨rfl, rfl, rfl, rfl⟩
  | none =>
    rw [hfe] at hfull
    rw [hfull]
    dsimp only
    rw [hfe]
    exact ⟨rfl, rfl, rfl, rfl⟩

/-- Some page goroutine panics: so does the call. -/
theorem fetchAllPages_page_panics (c : Client) (env : Env) (sched : Nat → Nat) (p : fetchParams)
    (firstPage : result) (subjects : List Subject)
    (h : (doRequest c env { p with Limit := 1 }).res = Except.ok firstPage)
    (h0 : firstPage.Total ≠ 0) (hm : makeSubjects env firstPage.Total = Except.ok subjects)
    (hp : ∃ pg ∈ pageRuns c env p firstPage.Total, (pageGoroutine pg.2).isPanic = true) :
    (fetchAllPages c env sched p).out
        = Outcome.panicked "invalid memory address or nil pointer dereference" ∧
      (fetchAllPages c env sched p).probe = doRequest c env { p with Limit := 1 } := by
  rw [fetchAllPages_started c env sched p firstPage subjects h h0 hm]
  cases hpi : panicIndex ((pageRuns c env p firstPage.Total).map fun pg => pageGoroutine pg.2) with
  | none =>
    obtain ⟨pg, hpg, hpan⟩ := hp
    have := (panicIndex_eq_none_iff _).mp hpi _ (List.mem_map.mpr ⟨pg, hpg, rfl⟩)
    rw [hpan] at this
    cases this
  | some i => exact ⟨rfl, rfl⟩

theorem mem_pageRuns (c : Client) (env : Env) (p : fetchParams) (total : Int)
    (pg : fetchParams × DoRun) :
    pg ∈ pageRuns c env p total ↔
      ∃ offset ∈ pageLoop total 0,
        pg = (pageParams p offset, doRequest c env (pageParams p offset)) := by
  unfold pageRuns
  rw [List.mem_map]
  constructor
  · rintro ⟨offset, ho, rfl⟩
    exact ⟨offset, ho, rfl⟩
  · rintro ⟨offset, ho, rfl⟩
    exact ⟨offset, ho, rfl⟩

theorem ceil_div_pageSize (total : Int) (h : 0 ≤ total) :
    ⌈(total : ℚ) / 50⌉ = (((total.toNat + 49) / 50 : Nat) : Int) := by
  obtain ⟨n, hn⟩ : ∃ n : Nat, n = (total.toNat + 49) / 50 := ⟨_, rfl⟩
  rw [← hn, Int.ceil_eq_iff]
  have h1 : (50 : Int) * (n : Int) - 50 < total := by omega
  have h2 : total ≤ (50 : Int) * (n : Int) := by omega
  have h1q : (50 : ℚ) * (n : ℚ) - 50 < (total : ℚ) := by exact_mod_cast h1
  have h2q : (total : ℚ) ≤ (50 : ℚ) * (n : ℚ) := by exact_mod_cast h2
  constructor
  · rw [lt_div_iff₀ (by norm_num)]
    push_cast
    linarith
  · rw [div_le_iff₀ (by norm_num)]
    push_cast
    linarith

/-- C1 (amended): when the probe reports a total `T ≥ 0` whose accumulator can
be allocated (`T = 0`, or `8·T ≤ maxAlloc` and the runtime has the memory) and
no page fetch returns a response holding a nil datum, `fetchAllPages` hands to
`g.Go`, after the probe, exactly `⌈T/50⌉` page fetches: the k-th asks for
offset `50·k` and limit 50, the offsets are pairwise distinct and are exactly
the multiples of 50 in `[0, T)`; for `T = 0` no page fetch is started and the
call returns an empty result with a nil error. -/
theorem fetchAllPages_dispatches (c : Client) (env : Env) (sched : Nat → Nat) (p : fetchParams)
    (firstPage : result)
    (hprobe : (doRequest c env { p with Limit := 1 }).res = Except.ok firstPage)
    (hT : 0 ≤ firstPage.Total)
    (halloc : firstPage.Total ≠ 0 →
      ptrSize * firstPage.Total ≤ maxAlloc ∧ env.granted (ptrSize * firstPage.Total) = true)
    (hnil : ∀ offset ∈ pageLoop firstPage.Total 0, ∀ r,
      (doRequest c env (pageParams p offset)).res = Except.ok r → ∀ d ∈ r.Data, d ≠ none) :
    (fetchAllPages c env sched p).probe = doRequest c env { p with Limit := 1 } ∧
    (fetchAllPages c env sched p).pages.map Prod.fst
      = (List.range ((firstPage.Total.toNat + 49) / 50)).map
          (fun (k : Nat) => pageParams p (50 * (k : Int))) ∧
    (((fetchAllPages c env sched p).pages.length : Nat) : Int) = ⌈(firstPage.Total : ℚ) / 50⌉ ∧
    (∀ pg ∈ (fetchAllPages c env sched p).pages,
      pg.1.Limit = 50 ∧ pg.2 = doRequest c env pg.1) ∧
    ((fetchAllPages c env sched p).pages.map fun pg => pg.1.Offset).Nodup ∧
    (∀ offset : Int, offset ∈ ((fetchAllPages c env sched p).pages.map fun pg => pg.1.Offset) ↔
      0 ≤ offset ∧ offset < firstPage.Total ∧ 50 ∣ offset) ∧
    (firstPage.Total = 0 →
      (fetchAllPages c env sched p).pages = [] ∧
        (fetchAllPages c env sched p).out = Outcome.returned [] none) := by
  have hpos : firstPage.Total ≠ 0 →
      (fetchAllPages c env sched p).probe = doRequest c env { p with Limit := 1 } ∧
        (fetchAllPages c env sched p).pages = pageRuns c env p firstPage.Total := by
    intro h0
    have hm : makeSubjects env firstPage.Total = Except.ok [] :=
      (makeSubjects_eq_ok_iff env _ []).mpr ⟨rfl, hT, (halloc h0).1, (halloc h0).2⟩
    have hnp : ∀ pg ∈ pageRuns c env p firstPage.Total, (pageGoroutine pg.2).isPanic = false := by
      intro pg hpg
      obtain ⟨offset, hoff, rfl⟩ := (mem_pageRuns c env p _ pg).mp hpg
      by_contra hp
      rw [Bool.not_eq_false] at hp
      obtain ⟨r, hr, hn⟩ := (pageGoroutine_isPanic_iff _).mp hp
      exact hnil offset hoff r hr none hn rfl
    obtain ⟨h1, h2, _⟩ := fetchAllPages_positive c env sched p firstPage [] hprobe h0 hm hnp
    exact ⟨h1, h2⟩
  have hpages : (fetchAllPages c env sched p).pages
      = (List.range ((firstPage.Total.toNat + 49) / 50)).map (fun (k : Nat) =>
          (pageParams p (50 * (k : Int)), doRequest c env (pageParams p (50 * (k : Int))))) := by
    by_cases h0 : firstPage.Total = 0
    · rw [fetchAllPages_zero c env sched p firstPage hprobe h0, h0]
      rfl
    · rw [(hpos h0).2, pageRuns, pageLoop_eq, List.map_map]
      rfl
  have hprobe2 : (fetchAllPages c env sched p).probe = doRequest c env { p with Limit := 1 } := by
    by_cases h0 : firstPage.Total = 0
    · rw [fetchAllPages_zero c env sched p firstPage hprobe h0]
    · exact (hpos h0).1
  have hoff : ((fetchAllPages c env sched p).pages.map fun pg => pg.1.Offset)
      = (List.range ((firstPage.Total.toNat + 49) / 50)).map (fun (k : Nat) => 50 * (k : Int)) := by
    rw [hpages, List.map_map]
    rfl
  refine ⟨hprobe2, ?_, ?_, ?_, ?_, ?_, ?_⟩
  · rw [hpages, List.map_map]
    rfl
  · rw [hpages, List.length_map, List.length_range, ceil_div_pageSize _ hT]
  · intro pg hpg
    rw [hpages, List.mem_map] at hpg
    obtain ⟨k, _, rfl⟩ := hpg
    exact ⟨rfl, rfl⟩
  · rw [hoff]
    refine List.Nodup.map ?_ (List.nodup_range _)
    intro a b hab
    simp only at hab
    omega
  · intro offset
    rw [hoff, List.mem_map]
    constructor
    · rintro ⟨k, hk, rfl⟩
      rw [List.mem_range] at hk
      refine ⟨by omega, by omega, Dvd.intro _ rfl⟩
    · rintro ⟨h0, h1, k, rfl⟩
      refine ⟨k.toNat, ?_, by omega⟩
      rw [List.mem_range]
      omega
  · intro hz
    rw [fetchAllPages_zero c env sched p firstPage hprobe hz]
    exact ⟨rfl, rfl⟩

theorem constEnv_200_doRequest (c : Client) (r : result) (p : fetchParams)
    (hmax : 0 ≤ c.maxRetries) :
    (doRequest c (constEnv 200 r) p).res = Except.ok r := by
  unfold doRequest
  obtain ⟨m, hm⟩ : ∃ m, (c.maxRetries + 1).toNat = m + 1 := ⟨c.maxRetries.toNat, by omega⟩
  rw [hm, doRequestLoop, if_neg (by simp [constEnv])]
  rfl

/-- A probe that reports 120 items, with pages that hold no nil datum, is
followed by three page fetches. -/
theorem fetchAllPages_dispatches_witness :
    (0 : Int) ≤ (emptyPage 120).Total ∧
    (((fetchAllPages (NewClient "ua") (constEnv 200 (emptyPage 120)) id sampleParams).pages.length
        : Nat) : Int) = ⌈(((emptyPage 120).Total : Int) : ℚ) / 50⌉ :=
  ⟨by decide,
    (fetchAllPages_dispatches (NewClient "ua") (constEnv 200 (emptyPage 120)) id sampleParams
      (emptyPage 120) rfl (by decide) (fun _ => ⟨by decide, rfl⟩)
      (fun offset _ r hr d hd => by
        rw [constEnv_200_doRequest (NewClient "ua") (emptyPage 120) _ (by decide)] at hr
        cases hr
        cases hd)).2.2.1⟩

/-- C1 fails as stated: for a probe that reports `2^60` items (a total `T ≥ 0`)
`make([]*Subject, 0, total)` panics, `8 · 2^60` bytes being more than
`maxAlloc`: no page fetch is started, where `⌈T/50⌉` is 23058430092136940, and
the call does not return. -/
theorem fetchAllPages_huge_total_dispatches_nothing :
    (doRequest (NewClient "ua") (constEnv 200 (emptyPage hugeTotal))
        { sampleParams with Limit := 1 }).res = Except.ok (emptyPage hugeTotal) ∧
    (0 : Int) ≤ (emptyPage hugeTotal).Total ∧
    ⌈(((emptyPage hugeTotal).Total : Int) : ℚ) / 50⌉ = 23058430092136940 ∧
    (fetchAllPages (NewClient "ua") (constEnv 200 (emptyPage hugeTotal)) id sampleParams).pages
      = [] ∧
    (fetchAllPages (NewClient "ua") (constEnv 200 (emptyPage hugeTotal)) id sampleParams).out
      = Outcome.panicked "makeslice: cap out of range" := by
  have h := fetchAllPages_make_fails (NewClient "ua") (constEnv 200 (emptyPage hugeTotal)) id
    sampleParams (emptyPage hugeTotal) "makeslice: cap out of range" rfl (by decide) rfl
  refine ⟨rfl, by decide, ?_, by rw [h], by rw [h]⟩
  rw [ceil_div_pageSize _ (by decide)]
  decide

/-! ## Aggregation of the pages -/

theorem DoRun.err_of_ok (r : DoRun) (page : result) (h : r.res = Except.ok page) :
    r.err = none := by
  unfold DoRun.err
  rw [h]

/-- C2 (amended): when the probe and every page fetch succeed (possibly after
retries), the reported total is not negative and its accumulator can be
allocated, and no page holds a nil datum, `fetchAllPages` returns with a nil
error and its items are, up to order, the concatenation of `toSubjects` of the
pages at offsets 0, 50, ... below the total; their number is the sum of the
pages' data lengths. -/
theorem fetchAllPages_collects (c : Client) (env : Env) (sched : Nat → Nat) (p : fetchParams)
    (firstPage : result) (pages : Int → result)
    (hprobe : (doRequest c env { p with Limit := 1 }).res = Except.ok firstPage)
    (hpages : ∀ offset ∈ pageLoop firstPage.Total 0,
      (doRequest c env (pageParams p offset)).res = Except.ok (pages offset))
    (hT : 0 ≤ firstPage.Total)
    (halloc : firstPage.Total ≠ 0 →
      ptrSize * firstPage.Total ≤ maxAlloc ∧ env.granted (ptrSize * firstPage.Total) = true)
    (hnil : ∀ offset ∈ pageLoop firstPage.Total 0, ∀ d ∈ (pages offset).Data, d ≠ none) :
    pageLoop firstPage.Total 0
      = (List.range ((firstPage.Total.toNat + 49) / 50)).map (fun (k : Nat) => 50 * (k : Int)) ∧
    ∃ (items : List Subject) (subs : Int → List Subject),
      (fetchAllPages c env sched p).out = Outcome.returned items none ∧
      (∀ offset ∈ pageLoop firstPage.Total 0, (pages offset).toSubjects = some (subs offset)) ∧
      items.Perm ((pageLoop firstPage.Total 0).flatMap subs) ∧
      items.length
        = ((pageLoop firstPage.Total 0).map fun offset => (pages offset).Data.length).sum := by
  refine ⟨pageLoop_eq _, ?_⟩
  have hsubs : ∀ offset ∈ pageLoop firstPage.Total 0,
      (pages offset).toSubjects = some (((pages offset).toSubjects).getD []) ∧
        (((pages offset).toSubjects).getD []).length = (pages offset).Data.length := by
    intro offset hoff
    obtain ⟨s, hs, hl⟩ := toSubjects_of_no_nil (pages offset) (hnil offset hoff)
    rw [hs]
    exact ⟨rfl, hl⟩
  have hlen : ((pageLoop firstPage.Total 0).flatMap
        fun offset => ((pages offset).toSubjects).getD []).length
      = ((pageLoop firstPage.Total 0).map fun offset => (pages offset).Data.length).sum := by
    rw [List.length_flatMap]
    congr 1
    apply List.map_congr_left
    intro offset hoff
    exact (hsubs offset hoff).2
  by_cases h0 : firstPage.Total = 0
  · refine ⟨[], fun offset => ((pages offset).toSubjects).getD [], ?_,
      fun offset hoff => (hsubs offset hoff).1, ?_, ?_⟩
    · rw [fetchAllPages_zero c env sched p firstPage hprobe h0]
    · rw [pageLoop_eq, h0]
      exact List.Perm.refl _
    · rw [pageLoop_eq, h0]
      rfl
  · have hm : makeSubjects env firstPage.Total = Except.ok [] :=
      (makeSubjects_eq_ok_iff env _ []).mpr ⟨rfl, hT, (halloc h0).1, (halloc h0).2⟩
    have hnp : ∀ pg ∈ pageRuns c env p firstPage.Total, (pageGoroutine pg.2).isPanic = false := by
      intro pg hpg
      obtain ⟨offset, hoff, rfl⟩ := (mem_pageRuns c env p _ pg).mp hpg
      by_contra hp
      rw [Bool.not_eq_false] at hp
      obtain ⟨r, hr, hn⟩ := (pageGoroutine_isPanic_iff _).mp hp
      rw [hpages offset hoff] at hr
      cases hr
      exact hnil offset hoff none hn rfl
    obtain ⟨_, hpg, ho, _⟩ := fetchAllPages_positive c env sched p firstPage [] hprobe h0 hm hnp
    have hperm := completionOrder_perm sched (fetchAllPages c env sched p).pages
    have hnone : firstError ((completionOrder sched (fetchAllPages c env sched p).pages).map
        fun d => d.2.err) = none := by
      rw [firstError_eq_none_iff]
      intro e he
      rw [List.mem_map] at he
      obtain ⟨d, hd, rfl⟩ := he
      have hd2 := hperm.subset hd
      rw [hpg] at hd2
      obtain ⟨offset, hoff, rfl⟩ := (mem_pageRuns c env p _ d).mp hd2
      exact DoRun.err_of_ok _ _ (hpages offset hoff)
    rw [hnone] at ho
    have hp : ((completionOrder sched (fetchAllPages c env sched p).pages).flatMap
          fun d => (pageGoroutine d.2).items).Perm
        ((pageLoop firstPage.Total 0).flatMap
          fun offset => ((pages offset).toSubjects).getD []) := by
      refine (hperm.flatMap_right _).trans ?_
      rw [hpg, pageRuns, List.flatMap_map]
      apply List.Perm.of_eq
      apply List.flatMap_congr
      intro offset hoff
      exact pageGoroutine_items _ _ _ (hpages offset hoff) (hsubs offset hoff).1
    exact ⟨_, fun offset => ((pages offset).toSubjects).getD [], ho,
      fun offset hoff => (hsubs offset hoff).1, hp, by rw [hp.length_eq, hlen]⟩

theorem pageLoop_120 : pageLoop 120 0 = [0, 50, 100] := by
  rw [pageLoop_eq]
  decide

theorem samplePage_no_nil (offset n : Nat) : ∀ d ∈ (samplePage offset n).Data, d ≠ none := by
  intro d hd
  simp only [samplePage, List.mem_map] at hd
  obtain ⟨i, _, rfl⟩ := hd
  simp

/-- Three pages of a collection of 120 items, the second answered 429 at first:
that page takes two attempts and the call returns all 120 items with a nil error. -/
theorem fetchAllPages_collects_witness :
    (doRequest (NewClient "ua") flakyEnv (pageParams sampleParams 50)).attempts = 2 ∧
    (∃ items, (fetchAllPages (NewClient "ua") flakyEnv id sampleParams).out
      = Outcome.returned items none ∧ items.length = 120) := by
  have hpages : ∀ offset ∈ pageLoop (samplePage 0 1).Total 0,
      (doRequest (NewClient "ua") flakyEnv (pageParams sampleParams offset)).res
        = Except.ok (flakyPages offset) := by
    rw [show (samplePage 0 1).Total = 120 from rfl, pageLoop_120]
    intro offset hoff
    simp only [List.mem_cons, List.mem_singleton, List.not_mem_nil, or_false] at hoff
    rcases hoff with rfl | rfl | rfl <;> rfl
  have hnil : ∀ offset ∈ pageLoop (samplePage 0 1).Total 0,
      ∀ d ∈ (flakyPages offset).Data, d ≠ none := by
    intro offset _
    unfold flakyPages
    split_ifs <;> exact samplePage_no_nil _ _
  have h := fetchAllPages_collects (NewClient "ua") flakyEnv id sampleParams (samplePage 0 1)
    flakyPages rfl hpages (by decide) (fun _ => ⟨by decide, rfl⟩) hnil
  obtain ⟨items, subs, hi, _, _, hlen⟩ := h.2
  refine ⟨by decide, items, hi, ?_⟩
  rw [hlen, show (samplePage 0 1).Total = 120 from rfl, pageLoop_120]
  decide

theorem pageLoop_1 : pageLoop 1 0 = [0] := by
  rw [pageLoop_eq]
  decide

/-- C2 fails as stated. For a probe that reports `2^60` items and a server that
answers every page, `make` panics: nothing is returned. For a probe that
reports one item and a page fetch that succeeds with `"data": [null]`, a page
of one datum, the goroutine of the page panics in `toSubjects`: no item is
returned, where the data lengths of the pages sum to one. -/
theorem fetchAllPages_succeeds_without_result :
    ((doRequest (NewClient "ua") (constEnv 200 (emptyPage hugeTotal))
          { sampleParams with Limit := 1 }).res = Except.ok (emptyPage hugeTotal) ∧
      (∀ offset, (doRequest (NewClient "ua") (constEnv 200 (emptyPage hugeTotal))
          (pageParams sampleParams offset)).res = Except.ok (emptyPage hugeTotal)) ∧
      (fetchAllPages (NewClient "ua") (constEnv 200 (emptyPage hugeTotal)) id sampleParams).out
        = Outcome.panicked "makeslice: cap out of range") ∧
    ((doRequest (NewClient "ua") (constEnv 200 nullPage)
          { sampleParams with Limit := 1 }).res = Except.ok nullPage ∧
      (∀ offset, (doRequest (NewClient "ua") (constEnv 200 nullPage)
          (pageParams sampleParams offset)).res = Except.ok nullPage) ∧
      (fetchAllPages (NewClient "ua") (constEnv 200 nullPage) id sampleParams).out
        = Outcome.panicked "invalid memory address or nil pointer dereference" ∧
      (∀ items err,
        (fetchAllPages (NewClient "ua") (constEnv 200 nullPage) id sampleParams).out
          ≠ Outcome.returned items err)) := by
  have h1 := fetchAllPages_make_fails (NewClient "ua") (constEnv 200 (emptyPage hugeTotal)) id
    sampleParams (emptyPage hugeTotal) "makeslice: cap out of range" rfl (by decide) rfl
  have h2 := fetchAllPages_page_panics (NewClient "ua") (constEnv 200 nullPage) id
    sampleParams nullPage [] rfl (by decide) rfl
    ⟨(pageParams sampleParams 0,
        doRequest (NewClient "ua") (constEnv 200 nullPage) (pageParams sampleParams 0)),
      (mem_pageRuns _ _ _ _ _).mpr ⟨0, by rw [show nullPage.Total = 1 from rfl, pageLoop_1]; simp,
        rfl⟩,
      rfl⟩
  refine ⟨⟨rfl, fun _ => rfl, by rw [h1]⟩, ⟨rfl, fun _ => rfl, h2.1, ?_⟩⟩
  intro items err h
  rw [h2.1] at h
  cases h

/-! ## A negative total -/

/-- C10 fails on the code: a probe answered 200 with `"total": -1` makes
`fetchAllPages` panic in `make([]*Subject, 0, total)`; it neither returns a
result nor an error. No page fetch has been started at that point. -/
theorem fetchAllPages_negative_total_panics :
    (doRequest (NewClient "ua") (constEnv 200 (emptyPage (-1))) { sampleParams with Limit := 1 }).res
      = Except.ok (emptyPage (-1)) ∧
    (fetchAllPages (NewClient "ua") (constEnv 200 (emptyPage (-1))) id sampleParams).out
      = Outcome.panicked "makeslice: cap out of range" ∧
    (fetchAllPages (NewClient "ua") (constEnv 200 (emptyPage (-1))) id sampleParams).pages = [] ∧
    (∀ items err,
      (fetchAllPages (NewClient "ua") (constEnv 200 (emptyPage (-1))) id sampleParams).out
        ≠ Outcome.returned items err) := by
  have h := fetchAllPages_negative (NewClient "ua") (constEnv 200 (emptyPage (-1))) id
    sampleParams (emptyPage (-1)) rfl (by decide)
  refine ⟨rfl, by rw [h], by rw [h], ?_⟩
  intro items err hret
  rw [h] at hret
  cases hret

/-! ## The coordinator -/

theorem firstError_isSome_of_mem (l : List (Option GoError)) (err : GoError)
    (h : some err ∈ l) : ∃ e, firstError l = some e := by
  cases hf : firstError l with
  | some e => exact ⟨e, rfl⟩
  | none =>
    have := (firstError_eq_none_iff l).mp hf _ h
    cases this

/-- A `fetchAllPages` call panics exactly when its probe reported a non-zero
total that `make` refuses, or some page it fetched holds a nil datum. -/
theorem fetchAllPages_isPanic_iff (c : Client) (env : Env) (sched : Nat → Nat)
    (p : fetchParams) :
    (fetchAllPages c env sched p).out.isPanic = true ↔
      ∃ firstPage, (doRequest c env { p with Limit := 1 }).res = Except.ok firstPage ∧
        firstPage.Total ≠ 0 ∧
        (firstPage.Total < 0 ∨ ptrSize * firstPage.Total > maxAlloc ∨
          env.granted (ptrSize * firstPage.Total) = false ∨
          ∃ offset ∈ pageLoop firstPage.Total 0, ∃ r,
            (doRequest c env (pageParams p offset)).res = Except.ok r ∧ none ∈ r.Data) := by
  cases hprobe : (doRequest c env { p with Limit := 1 }).res with
  | error e =>
    rw [fetchAllPages_probe_error c env sched p e hprobe]
    simp [Outcome.isPanic]
  | ok firstPage =>
    by_cases h0 : firstPage.Total = 0
    · rw [fetchAllPages_zero c env sched p firstPage hprobe h0]
      simp only [Outcome.isPanic, Bool.false_eq_true, false_iff]
      rintro ⟨fp, hfp, hne, _⟩
      cases hfp
      exact hne h0
    · cases hm : makeSubjects env firstPage.Total with
      | error msg =>
        rw [fetchAllPages_make_fails c env sched p firstPage msg hprobe h0 hm]
        simp only [Outcome.isPanic, true_iff]
        refine ⟨firstPage, rfl, h0, ?_⟩
        by_contra hcon
        push_neg at hcon
        have := (makeSubjects_eq_ok_iff env firstPage.Total []).mpr
          ⟨rfl, by omega, by omega, by simpa using hcon.2.2.1⟩
        rw [hm] at this
        cases this
      | ok subjects =>
        obtain ⟨_, hge, hle, hgr⟩ := (makeSubjects_eq_ok_iff env _ subjects).mp hm
        by_cases hp : ∃ pg ∈ pageRuns c env p firstPage.Total, (pageGoroutine pg.2).isPanic = true
        · rw [(fetchAllPages_page_panics c env sched p firstPage subjects hprobe h0 hm hp).1]
          simp only [Outcome.isPanic, true_iff]
          obtain ⟨pg, hpg, hpan⟩ := hp
          obtain ⟨offset, hoff, rfl⟩ := (mem_pageRuns c env p _ pg).mp hpg
          obtain ⟨r, hr, hn⟩ := (pageGoroutine_isPanic_iff _).mp hpan
          exact ⟨firstPage, rfl, h0, Or.inr (Or.inr (Or.inr ⟨offset, hoff, r, hr, hn⟩))⟩
        · have hnp : ∀ pg ∈ pageRuns c env p firstPage.Total,
              (pageGoroutine pg.2).isPanic = false := by
            intro pg hpg
            by_contra hc
            rw [Bool.not_eq_false] at hc
            exact hp ⟨pg, hpg, hc⟩
          rw [(fetchAllPages_positive c env sched p firstPage subjects hprobe h0 hm hnp).2.2.2]
          simp only [Bool.false_eq_true, false_iff]
          rintro ⟨fp, hfp, _, hcase⟩
          cases hfp
          rcases hcase with h | h | h | ⟨offset, hoff, r, hr, hn⟩
          · omega
          · omega
          · rw [hgr] at h
            cases h
          · exact hp ⟨_, (mem_pageRuns c env p _ _).mpr ⟨offset, hoff, rfl⟩,
              (pageGoroutine_isPanic_iff _).mpr ⟨r, hr, hn⟩⟩

/-- How a `fetchAllPages` call that returns ends, in terms of its probe and its
page fetches. -/
theorem fetchAllPages_outcome (c : Client) (env : Env) (sched : Nat → Nat) (p : fetchParams) :
    (∀ items err, (fetchAllPages c env sched p).out = Outcome.returned items (some err) →
      items = [] ∧
        ((fetchAllPages c env sched p).probe.err = some err ∨
          ∃ pg ∈ (fetchAllPages c env sched p).pages, pg.2.err = some err)) ∧
    (∀ items, (fetchAllPages c env sched p).out = Outcome.returned items none →
      (fetchAllPages c env sched p).probe.err = none ∧
        ∀ pg ∈ (fetchAllPages c env sched p).pages, pg.2.err = none) := by
  cases hprobe : (doRequest c env { p with Limit := 1 }).res with
  | error e =>
    rw [fetchAllPages_probe_error c env sched p e hprobe]
    refine ⟨?_, ?_⟩
    · intro items err h
      cases h
      exact ⟨rfl, Or.inl (by simp [DoRun.err, hprobe])⟩
    · intro items h
      cases h
  | ok firstPage =>
    by_cases h0 : firstPage.Total = 0
    · rw [fetchAllPages_zero c env sched p firstPage hprobe h0]
      refine ⟨?_, ?_⟩
      · intro items err h
        cases h
      · intro items h
        exact ⟨by simp [DoRun.err, hprobe], fun pg hpg => by cases hpg⟩
    · cases hm : makeSubjects env firstPage.Total with
      | error msg =>
        rw [fetchAllPages_make_fails c env sched p firstPage msg hprobe h0 hm]
        refine ⟨?_, ?_⟩
        · intro items err h
          cases h
        · intro items h
          cases h
      | ok subjects =>
        by_cases hp : ∃ pg ∈ pageRuns c env p firstPage.Total, (pageGoroutine pg.2).isPanic = true
        · rw [(fetchAllPages_page_panics c env sched p firstPage subjects hprobe h0 hm hp).1]
          refine ⟨?_, ?_⟩
          · intro items err h
            cases h
          · intro items h
            cases h
        · have hnp : ∀ pg ∈ pageRuns c env p firstPage.Total,
              (pageGoroutine pg.2).isPanic = false := by
            intro pg hpg
            by_contra hc
            rw [Bool.not_eq_false] at hc
            exact hp ⟨pg, hpg, hc⟩
          obtain ⟨hpr, _, ho, _⟩ :=
            fetchAllPages_positive c env sched p firstPage subjects hprobe h0 hm hnp
          have hperm := completionOrder_perm sched (fetchAllPages c env sched p).pages
          refine ⟨?_, ?_⟩
          · intro items err h
            rw [ho] at h
            split at h
            next e hfe =>
              cases h
              have hmem := firstError_mem _ _ hfe
              rw [List.mem_map] at hmem
              obtain ⟨d, hd, hde⟩ := hmem
              exact ⟨rfl, Or.inr ⟨d, hperm.subset hd, hde⟩⟩
            next hfe => cases h
          · intro items h
            rw [ho] at h
            split at h
            next e hfe => cases h
            next hfe =>
              refine ⟨by rw [hpr]; simp [DoRun.err, hprobe], ?_⟩
              intro pg hpg
              exact (firstError_eq_none_iff _).mp hfe _
                (List.mem_map.mpr ⟨pg, hperm.symm.subset hpg, rfl⟩)

theorem spawnAll_get? (c : Client) (w : World) (userID : String) (subjType : SubjectType) :
    ∀ (collTypes : List CollectionType) (i j : Nat),
      (spawnAll c w userID subjType i collTypes).get? j
        = (collTypes.get? j).map (runOf c w userID subjType (i + j)) := by
  intro collTypes
  induction collTypes with
  | nil =>
    intro i j
    simp [spawnAll]
  | cons ct rest ih =>
    intro i j
    cases j with
    | zero => simp [spawnAll]
    | succ j =>
      simp only [spawnAll, List.get?_cons_succ]
      rw [ih (i + 1) j, show i + 1 + j = i + (j + 1) by omega]

theorem Fetch_runs (c : Client) (w : World) (userID : String) (subjType : SubjectType)
    (collTypes : List CollectionType) (hv : validateUserID userID = none) :
    (Fetch c w userID subjType collTypes).runs = spawnAll c w userID subjType 0 collTypes := by
  unfold Fetch
  simp only [hv]
  cases panicMessage ((completionOrder w.outer (spawnAll c w userID subjType 0 collTypes)).map
    fun r => r.out) with
  | some msg => rfl
  | none =>
    dsimp only
    cases firstError ((completionOrder w.outer (spawnAll c w userID subjType 0 collTypes)).map
      fun r => r.out.err) <;> rfl

/-- The runs of `Fetch` are those of the requested collection types, in order. -/
theorem Fetch_runs_get? (c : Client) (w : World) (userID : String) (subjType : SubjectType)
    (collTypes : List CollectionType) (hv : validateUserID userID = none) (i : Nat) :
    (Fetch c w userID subjType collTypes).runs.get? i
      = (collTypes.get? i).map (runOf c w userID subjType i) := by
  rw [Fetch_runs c w userID subjType collTypes hv, spawnAll_get?, Nat.zero_add]

theorem mem_Fetch_runs (c : Client) (w : World) (userID : String) (subjType : SubjectType)
    (collTypes : List CollectionType) (hv : validateUserID userID = none) (run : PagesRun) :
    run ∈ (Fetch c w userID subjType collTypes).runs ↔
      ∃ i ct, collTypes.get? i = some ct ∧ run = runOf c w userID subjType i ct := by
  rw [List.mem_iff_get?]
  constructor
  · rintro ⟨i, hi⟩
    rw [Fetch_runs_get? c w userID subjType collTypes hv] at hi
    cases hct : collTypes.get? i with
    | none =>
      rw [hct] at hi
      cases hi
    | some ct =>
      rw [hct] at hi
      simp only [Option.map_some', Option.some.injEq] at hi
      exact ⟨i, ct, hct, hi.symm⟩
  · rintro ⟨i, ct, hct, rfl⟩
    exact ⟨i, by rw [Fetch_runs_get? c w userID subjType collTypes hv, hct]; rfl⟩

theorem Fetch_of_valid (c : Client) (w : World) (userID : String) (subjType : SubjectType)
    (collTypes : List CollectionType) (hv : validateUserID userID = none) :
    (Fetch c w userID subjType collTypes).out
      = match panicMessage ((completionOrder w.outer
            (Fetch c w userID subjType collTypes).runs).map fun r => r.out) with
        | some msg => Outcome.panicked msg
        | none =>
          match firstError ((completionOrder w.outer
              (Fetch c w userID subjType collTypes).runs).map fun r => r.out.err) with
          | some err => Outcome.returned [] (some err)
          | none => Outcome.returned
              ((completionOrder w.outer (Fetch c w userID subjType collTypes).runs).flatMap
                fun r => r.out.items) none := by
  rw [Fetch_runs c w userID subjType collTypes hv]
  unfold Fetch
  simp only [hv]
  cases panicMessage ((completionOrder w.outer (spawnAll c w userID subjType 0 collTypes)).map
    fun r => r.out) with
  | some msg => rfl
  | none =>
    dsimp only
    cases firstError ((completionOrder w.outer (spawnAll c w userID subjType 0 collTypes)).map
      fun r => r.out.err) <;> rfl

/-- A run with a failed probe or page fetch, if it does not panic, reports an error. -/
theorem fetchAllPages_reports_failure (c : Client) (env : Env) (sched : Nat → Nat)
    (p : fetchParams)
    (hnp : (fetchAllPages c env sched p).out.isPanic = false)
    (hfail : (∃ e, (fetchAllPages c env sched p).probe.err = some e) ∨
      ∃ pg ∈ (fetchAllPages c env sched p).pages, ∃ e, pg.2.err = some e) :
    ∃ e, (fetchAllPages c env sched p).out.err = some e := by
  obtain ⟨_, h3⟩ := fetchAllPages_outcome c env sched p
  cases ho : (fetchAllPages c env sched p).out with
  | panicked msg =>
    rw [ho] at hnp
    cases hnp
  | returned items err =>
    cases err with
    | some e => exact ⟨e, rfl⟩
    | none =>
      obtain ⟨hp, hpg⟩ := h3 items ho
      rcases hfail with ⟨e, he⟩ | ⟨pg, hmem, e, he⟩
      · rw [hp] at he
        cases he
      · rw [hpg pg hmem] at he
        cases he

theorem doRequest_always_500 (c : Client) (env : Env) (p : fetchParams) (req : Request)
    (hmax : 0 ≤ c.maxRetries) (hctx : ∀ n, env.ctxDone p n = false)
    (hreq : buildRequest c env p = Except.ok req)
    (h500 : ∀ n, ∃ body, env.httpDo req n = RoundTrip.response 500 body) :
    (doRequest c env p).res
        = Except.error (GoError.Errorf "max retries exceeded: " GoError.ErrServerError) ∧
      (doRequest c env p).attempts = c.maxRetries.toNat + 1 := by
  have honce : ∀ n, doRequestOnce c env p n = Except.error GoError.ErrServerError := by
    intro n
    obtain ⟨body, hb⟩ := h500 n
    unfold doRequestOnce
    simp only [hreq, hb]
    simp [handleStatusCode, StatusOK, StatusNotFound, StatusUnauthorized, StatusForbidden,
      StatusTooManyRequests]
  have hn : (c.maxRetries + 1).toNat = c.maxRetries.toNat + 1 := by omega
  obtain ⟨_, _, h3⟩ := doRequestLoop_spec c env p hctx (c.maxRetries.toNat + 1) 0 none
  obtain ⟨ha, _, hm⟩ := h3 (fun i _ => by rw [honce]; rfl)
  obtain ⟨lastErr, hl, hres⟩ := hm c.maxRetries.toNat rfl
  rw [honce] at hl
  cases hl
  unfold doRequest
  rw [hn]
  exact ⟨hres, ha⟩

/-- C6 (amended): `Fetch` never returns items together with an error. With a
valid user ID, `Fetch` runs `fetchAllPages` once per requested collection type;
if the probe or a page fetch of some collection type ends in an error, `Fetch`
cannot return items or a nil error, and, provided no goroutine panics, it
returns a non-nil error (that of some probe or page fetch) and no items,
whatever the other fetches returned. If moreover every probe succeeded and
every failed page fetch ended in the same error `E`, `Fetch` returns `E`; a
page answered 500 on all `maxRetries + 1` attempts ends in "max retries
exceeded" wrapping `ErrServerError`. A goroutine panics exactly when its probe
reports a non-zero total that `make` refuses (negative, more than
`maxAlloc / 8`, or more memory than there is) or a page it fetched holds a nil
datum. -/
theorem Fetch_no_partial_results (c : Client) (w : World) (userID : String)
    (subjType : SubjectType) (collTypes : List CollectionType) :
    (∀ items err, (Fetch c w userID subjType collTypes).out = Outcome.returned items (some err) →
      items = []) ∧
    (validateUserID userID = none → ∀ i,
      (Fetch c w userID subjType collTypes).runs.get? i
        = (collTypes.get? i).map (runOf c w userID subjType i)) ∧
    (validateUserID userID = none →
      (∃ i ct, collTypes.get? i = some ct ∧
        ((∃ e, (runOf c w userID subjType i ct).probe.err = some e) ∨
          ∃ pg ∈ (runOf c w userID subjType i ct).pages, ∃ e, pg.2.err = some e)) →
      (∀ items err, (Fetch c w userID subjType collTypes).out = Outcome.returned items err →
        items = [] ∧ err ≠ none) ∧
      ((∀ i ct, collTypes.get? i = some ct →
          (runOf c w userID subjType i ct).out.isPanic = false) →
        ∃ err, (Fetch c w userID subjType collTypes).out = Outcome.returned [] (some err) ∧
          ∃ i ct, collTypes.get? i = some ct ∧
            ((runOf c w userID subjType i ct).probe.err = some err ∨
              ∃ pg ∈ (runOf c w userID subjType i ct).pages, pg.2.err = some err))) ∧
    (validateUserID userID = none →
      ∀ E : GoError,
        (∃ i ct, collTypes.get? i = some ct ∧
          ∃ pg ∈ (runOf c w userID subjType i ct).pages, pg.2.err = some E) →
        (∀ i ct, collTypes.get? i = some ct →
          (runOf c w userID subjType i ct).out.isPanic = false ∧
          (runOf c w userID subjType i ct).probe.err = none ∧
          ∀ pg ∈ (runOf c w userID subjType i ct).pages, ∀ e, pg.2.err = some e → e = E) →
        (Fetch c w userID subjType collTypes).out = Outcome.returned [] (some E)) ∧
    (∀ (env : Env) (p : fetchParams) (req : Request),
      0 ≤ c.maxRetries → (∀ n, env.ctxDone p n = false) →
      buildRequest c env p = Except.ok req →
      (∀ n, ∃ body, env.httpDo req n = RoundTrip.response 500 body) →
      (doRequest c env p).res
          = Except.error (GoError.Errorf "max retries exceeded: " GoError.ErrServerError) ∧
        (doRequest c env p).attempts = c.maxRetries.toNat + 1) ∧
    (∀ (i : Nat) (ct : CollectionType),
      (runOf c w userID subjType i ct).out.isPanic = true ↔
        ∃ firstPage,
          (doRequest c (w.env i)
            { UserID := userID, SubjectType := subjType, CollectionType := ct,
              Offset := 0, Limit := 1 }).res = Except.ok firstPage ∧
          firstPage.Total ≠ 0 ∧
          (firstPage.Total < 0 ∨ ptrSize * firstPage.Total > maxAlloc ∨
            (w.env i).granted (ptrSize * firstPage.Total) = false ∨
            ∃ offset ∈ pageLoop firstPage.Total 0, ∃ r,
              (doRequest c (w.env i)
                { UserID := userID, SubjectType := subjType, CollectionType := ct,
                  Offset := offset, Limit := pageSize }).res = Except.ok r ∧
              none ∈ r.Data)) := by
  have hperm := completionOrder_perm w.outer (Fetch c w userID subjType collTypes).runs
  -- a returned error comes without items
  have h1 : ∀ items err,
      (Fetch c w userID subjType collTypes).out = Outcome.returned items (some err) →
        items = [] := by
    intro items err h
    cases hv : validateUserID userID with
    | some e =>
      unfold Fetch at h
      simp only [hv] at h
      cases h
      rfl
    | none =>
      rw [Fetch_of_valid c w userID subjType collTypes hv] at h
      split at h
      · cases h
      · split at h
        · cases h
          rfl
        · cases h
  -- when no run panics and some run failed, an error is returned
  have h2 : validateUserID userID = none →
      (∀ run ∈ (Fetch c w userID subjType collTypes).runs, run.out.isPanic = false) →
      (∃ i ct, collTypes.get? i = some ct ∧
        ((∃ e, (runOf c w userID subjType i ct).probe.err = some e) ∨
          ∃ pg ∈ (runOf c w userID subjType i ct).pages, ∃ e, pg.2.err = some e)) →
      ∃ err, (Fetch c w userID subjType collTypes).out = Outcome.returned [] (some err) ∧
        firstError ((completionOrder w.outer (Fetch c w userID subjType collTypes).runs).map
          fun r => r.out.err) = some err := by
    intro hv hnp ⟨i, ct, hct, hfail⟩
    have hmem : runOf c w userID subjType i ct ∈ (Fetch c w userID subjType collTypes).runs :=
      (mem_Fetch_runs c w userID subjType collTypes hv _).mpr ⟨i, ct, hct, rfl⟩
    obtain ⟨e, he⟩ := fetchAllPages_reports_failure c _ _ _ (hnp _ hmem) hfail
    have hin : some e ∈ (completionOrder w.outer (Fetch c w userID subjType collTypes).runs).map
        fun r => r.out.err :=
      List.mem_map.mpr ⟨_, hperm.symm.subset hmem, he⟩
    obtain ⟨e2, he2⟩ := firstError_isSome_of_mem _ e hin
    refine ⟨e2, ?_, he2⟩
    have hpm : panicMessage ((completionOrder w.outer
        (Fetch c w userID subjType collTypes).runs).map fun r => r.out) = none := by
      rw [panicMessage_eq_none_iff]
      intro o ho
      rw [List.mem_map] at ho
      obtain ⟨r, hr, rfl⟩ := ho
      exact hnp r (hperm.subset hr)
    rw [Fetch_of_valid c w userID subjType collTypes hv, hpm]
    dsimp only
    rw [he2]
  -- the error returned is that of some probe or page fetch
  have hsrc : validateUserID userID = none → ∀ err,
      firstError ((completionOrder w.outer (Fetch c w userID subjType collTypes).runs).map
        fun r => r.out.err) = some err →
      ∃ i ct, collTypes.get? i = some ct ∧
        ((runOf c w userID subjType i ct).probe.err = some err ∨
          ∃ pg ∈ (runOf c w userID subjType i ct).pages, pg.2.err = some err) := by
    intro hv err hfe
    have hm := firstError_mem _ _ hfe
    rw [List.mem_map] at hm
    obtain ⟨run, hmem, herr⟩ := hm
    obtain ⟨i, ct, hct, rfl⟩ :=
      (mem_Fetch_runs c w userID subjType collTypes hv run).mp (hperm.subset hmem)
    refine ⟨i, ct, hct, ?_⟩
    cases ho : (runOf c w userID subjType i ct).out with
    | panicked msg =>
      rw [ho] at herr
      cases herr
    | returned items e =>
      rw [ho] at herr
      simp only [Outcome.err] at herr
      subst herr
      exact ((fetchAllPages_outcome c _ _ _).1 items err ho).2
  have hnopanic : validateUserID userID = none →
      (∀ i ct, collTypes.get? i = some ct →
        (runOf c w userID subjType i ct).out.isPanic = false) →
      ∀ run ∈ (Fetch c w userID subjType collTypes).runs, run.out.isPanic = false := by
    intro hv h run hmem
    obtain ⟨i, ct, hct, rfl⟩ := (mem_Fetch_runs c w userID subjType collTypes hv run).mp hmem
    exact h i ct hct
  refine ⟨h1, fun hv i => Fetch_runs_get? c w userID subjType collTypes hv i, ?_, ?_, ?_, ?_⟩
  · intro hv hfail
    constructor
    · intro items err hret
      have hnp : ∀ run ∈ (Fetch c w userID subjType collTypes).runs,
          run.out.isPanic = false := by
        have hpm : panicMessage ((completionOrder w.outer
            (Fetch c w userID subjType collTypes).runs).map fun r => r.out) = none := by
          cases hpm : panicMessage ((completionOrder w.outer
              (Fetch c w userID subjType collTypes).runs).map fun r => r.out) with
          | none => rfl
          | some msg =>
            rw [Fetch_of_valid c w userID subjType collTypes hv, hpm] at hret
            cases hret
        intro r hr
        exact (panicMessage_eq_none_iff _).mp hpm _
          (List.mem_map.mpr ⟨r, hperm.symm.subset hr, rfl⟩)
      obtain ⟨e, he, _⟩ := h2 hv hnp hfail
      rw [he] at hret
      cases hret
      exact ⟨rfl, by simp⟩
    · intro hnp
      obtain ⟨e, he, hfe⟩ := h2 hv (hnopanic hv hnp) hfail
      exact ⟨e, he, hsrc hv e hfe⟩
  · intro hv E hex hall
    obtain ⟨i0, ct0, hct0, pg0, hpg0, he0⟩ := hex
    obtain ⟨e, he, hfe⟩ := h2 hv (hnopanic hv (fun i ct hct => (hall i ct hct).1))
      ⟨i0, ct0, hct0, Or.inr ⟨pg0, hpg0, E, he0⟩⟩
    obtain ⟨i, ct, hct, hs⟩ := hsrc hv e hfe
    have hE : e = E := by
      rcases hs with hp | ⟨pg, hpg, hpe⟩
      · rw [(hall i ct hct).2.1] at hp
        cases hp
      · exact (hall i ct hct).2.2 pg hpg e hpe
    rw [he, hE]
  · intro env p req hmax hctx hreq h500
    exact doRequest_always_500 c env p req hmax hctx hreq h500
  · intro i ct
    exact fetchAllPages_isPanic_iff c (w.env i) (w.inner i) _

/-! ## Scenarios -/

theorem brokenEnv_run (i : Nat) (ct : CollectionType) :
    (runOf (NewClient "ua") brokenWorld "u" SubjectTypeAnime i ct).out.isPanic = false ∧
    (runOf (NewClient "ua") brokenWorld "u" SubjectTypeAnime i ct).probe.err = none ∧
    (∃ pg ∈ (runOf (NewClient "ua") brokenWorld "u" SubjectTypeAnime i ct).pages,
      pg.2.err = some (GoError.Errorf "max retries exceeded: " GoError.ErrServerError)) ∧
    (∀ pg ∈ (runOf (NewClient "ua") brokenWorld "u" SubjectTypeAnime i ct).pages,
      ∀ e, pg.2.err = some e →
        e = GoError.Errorf "max retries exceeded: " GoError.ErrServerError) := by
  have hruns : ∀ p : fetchParams, pageRuns (NewClient "ua") brokenEnv p (samplePage 0 1).Total
      = [0, 50, 100].map fun offset =>
          (pageParams p offset, doRequest (NewClient "ua") brokenEnv (pageParams p offset)) := by
    intro p
    rw [pageRuns, show (samplePage 0 1).Total = 120 from rfl, pageLoop_120]
  obtain ⟨hpr, hpg, _, hnp⟩ := fetchAllPages_positive (NewClient "ua") brokenEnv (fun _ => 0)
    { UserID := "u", SubjectType := SubjectTypeAnime, CollectionType := ct, Offset := 0, Limit := 0 }
    (samplePage 0 1) [] rfl (by decide) rfl
    (by
      rw [hruns]
      intro pg hmem
      simp only [List.map_cons, List.map_nil, List.mem_cons, List.mem_singleton,
        List.not_mem_nil, or_false] at hmem
      rcases hmem with rfl | rfl | rfl
      · exact (Bool.not_eq_true _).mp fun hp => by
          obtain ⟨r, hr, hn⟩ := (pageGoroutine_isPanic_iff _).mp hp
          cases hr
          exact samplePage_no_nil 0 50 none hn rfl
      · rfl
      · exact (Bool.not_eq_true _).mp fun hp => by
          obtain ⟨r, hr, hn⟩ := (pageGoroutine_isPanic_iff _).mp hp
          cases hr
          exact samplePage_no_nil 100 20 none hn rfl)
  rw [hruns] at hpg
  show (fetchAllPages (NewClient "ua") brokenEnv (fun _ => 0) _).out.isPanic = false ∧
    (fetchAllPages (NewClient "ua") brokenEnv (fun _ => 0) _).probe.err = none ∧
    (∃ pg ∈ (fetchAllPages (NewClient "ua") brokenEnv (fun _ => 0) _).pages, _) ∧
    (∀ pg ∈ (fetchAllPages (NewClient "ua") brokenEnv (fun _ => 0) _).pages, _)
  rw [hpr, hpg]
  refine ⟨hnp, rfl, ?_, ?_⟩
  · exact ⟨_, List.mem_cons_of_mem _ (List.mem_cons_self _ _), rfl⟩
  · intro pg hmem e he
    simp only [List.map_cons, List.map_nil, List.mem_cons, List.mem_singleton,
      List.not_mem_nil, or_false] at hmem
    rcases hmem with rfl | rfl | rfl
    · cases he
    · cases he
      rfl
    · cases he

/-- Two collection types served by `brokenEnv`: every probe and every page but
the one at offset 50 succeed, no goroutine panics, and `Fetch` returns "max
retries exceeded" wrapping `ErrServerError` and no items. -/
theorem Fetch_no_partial_results_witness :
    (Fetch (NewClient "ua") brokenWorld "u" SubjectTypeAnime
        [CollectionTypeDone, CollectionTypeDoing]).out
      = Outcome.returned []
          (some (GoError.Errorf "max retries exceeded: " GoError.ErrServerError)) := by
  have hv : validateUserID "u" = none := by decide
  refine (Fetch_no_partial_results (NewClient "ua") brokenWorld "u" SubjectTypeAnime
    [CollectionTypeDone, CollectionTypeDoing]).2.2.2.1 hv _ ?_ ?_
  · exact ⟨0, CollectionTypeDone, rfl, (brokenEnv_run 0 CollectionTypeDone).2.2.1⟩
  · intro i ct _
    exact ⟨(brokenEnv_run i ct).1, (brokenEnv_run i ct).2.1, (brokenEnv_run i ct).2.2.2⟩

/-- C6 fails as stated: the probe of the first collection type is answered 404,
a terminal failure, and the probe of the second reports `2^60` items, for which
`make` panics; `Fetch` panics and returns neither an error nor items. -/
theorem Fetch_panics_despite_failure :
    validateUserID "u" = none ∧
    (runOf (NewClient "ua") mixedWorld "u" SubjectTypeAnime 0 CollectionTypeDone).probe.err
      = some GoError.ErrInvalidUserID ∧
    (runOf (NewClient "ua") mixedWorld "u" SubjectTypeAnime 1 CollectionTypeDoing).probe.res
      = Except.ok (emptyPage hugeTotal) ∧
    (Fetch (NewClient "ua") mixedWorld "u" SubjectTypeAnime
        [CollectionTypeDone, CollectionTypeDoing]).out
      = Outcome.panicked "makeslice: cap out of range" ∧
    (∀ items err,
      (Fetch (NewClient "ua") mixedWorld "u" SubjectTypeAnime
          [CollectionTypeDone, CollectionTypeDoing]).out ≠ Outcome.returned items err) := by
  have hout : (Fetch (NewClient "ua") mixedWorld "u" SubjectTypeAnime
      [CollectionTypeDone, CollectionTypeDoing]).out
      = Outcome.panicked "makeslice: cap out of range" := by decide
  refine ⟨by decide, rfl, rfl, hout, ?_⟩
  intro items err h
  rw [hout] at h
  cases h

/-- A user ID of blanks and a tab is rejected by `Fetch` before anything is started. -/
theorem blank_userID_rejected_witness :
    (Fetch (NewClient "ua") brokenWorld "  \t" SubjectTypeAnime [CollectionTypeDone]).out
        = Outcome.returned [] (some GoError.ErrEmptyUserID) ∧
      (Fetch (NewClient "ua") brokenWorld "  \t" SubjectTypeAnime [CollectionTypeDone]).runs = [] :=
  ((blank_userID_rejected "  \t").1 (by decide)).2.1 (NewClient "ua") brokenWorld
    SubjectTypeAnime [CollectionTypeDone]

/-! ## The concurrency limit -/

theorem step_withinGroupLimits (s t : Groups) (a : Action) (h : step s a = some t)
    (hs : withinGroupLimits s) : t.limit = s.limit ∧ withinGroupLimits t := by
  obtain ⟨hlen, hall⟩ := hs
  have hset : ∀ (i : Nat) (o2 : Orchestrator),
      (o2.activePages ≤ s.limit ∧ (o2.probing = true → o2.activePages = 0)) →
      withinGroupLimits { s with running := List.set s.running i o2 } := by
    intro i o2 ho2
    refine ⟨by simpa using hlen, ?_⟩
    intro o ho
    rcases List.mem_or_eq_of_mem_set ho with hm | he
    · exact hall o hm
    · rw [he]
      exact ho2
  cases a with
  | start =>
    simp only [step] at h
    split at h
    · cases h
    · split_ifs at h with hlt
      cases h
      refine ⟨rfl, by simp only [List.length_append, List.length_singleton]; omega, ?_⟩
      intro o ho
      simp only [List.mem_append, List.mem_singleton] at ho
      rcases ho with ho | rfl
      · exact hall o ho
      · exact ⟨Nat.zero_le _, fun _ => rfl⟩
  | probeDone i =>
    simp only [step] at h
    split at h
    next o hget =>
      split_ifs at h with hp
      cases h
      have hm := List.get?_mem hget
      exact ⟨rfl, hset i _ ⟨(hall o hm).1, fun hc => by cases hc⟩⟩
    next => cases h
  | dispatch i =>
    simp only [step] at h
    split at h
    next o hget =>
      split_ifs at h with hp
      cases h
      exact ⟨rfl, hset i _ ⟨by show o.activePages + 1 ≤ s.limit; omega, fun hc => by cases hc⟩⟩
    next => cases h
  | pageDone i =>
    simp only [step] at h
    split at h
    next o hget =>
      split_ifs at h with hp
      cases h
      have hm := List.get?_mem hget
      refine ⟨rfl, hset i _ ⟨?_, ?_⟩⟩
      · show o.activePages - 1 ≤ s.limit
        have := (hall o hm).1
        omega
      · intro hc
        show o.activePages - 1 = 0
        have := (hall o hm).2 hc
        omega
    next => cases h
  | finish i =>
    simp only [step] at h
    split at h
    next o hget =>
      split_ifs at h with hp
      cases h
      refine ⟨rfl, ?_, ?_⟩
      · have := List.length_eraseIdx_le s.running i
        show (s.running.eraseIdx i).length ≤ s.limit
        omega
      · intro o2 ho2
        exact hall o2 (List.mem_of_mem_eraseIdx ho2)
    next => cases h

/-- Every state `Fetch` can reach keeps each group within its own limit. -/
theorem steps_withinGroupLimits (limit : Nat) (pages : List Nat) (actions : List Action)
    (s : Groups) (h : steps (initialGroups limit pages) actions = some s) :
    s.limit = limit ∧ withinGroupLimits s := by
  have key : ∀ (actions : List Action) (s0 s : Groups), withinGroupLimits s0 →
      steps s0 actions = some s → s.limit = s0.limit ∧ withinGroupLimits s := by
    intro actions
    induction actions with
    | nil =>
      intro s0 s h0 h
      simp only [steps] at h
      cases h
      exact ⟨rfl, h0⟩
    | cons a rest ih =>
      intro s0 s h0 h
      simp only [steps] at h
      split at h
      next t ht =>
        obtain ⟨hl, hw⟩ := step_withinGroupLimits s0 t a ht h0
        obtain ⟨hl2, hw2⟩ := ih t s hw h
        exact ⟨hl2.trans hl, hw2⟩
      next => cases h
  exact key actions (initialGroups limit pages) s
    ⟨Nat.zero_le _, fun o ho => by cases ho⟩ h

/-- C9 fails on the code: with `concurrencyLimit = 2` and two collection types
whose probes report 100 items (two pages each), both orchestrators run at once,
each within the limit of its own group; once each has started its two page
fetches and no response has arrived yet, four requests are in flight. -/
theorem inFlight_exceeds_limit :
    (WithConcurrencyLimit 2 (NewClient "ua")).concurrencyLimit = 2 ∧
    (pageLoop 100 0).length = 2 ∧
    ∃ s, steps (initialGroups 2 [2, 2])
        [Action.start, Action.start, Action.probeDone 0, Action.probeDone 1,
          Action.dispatch 0, Action.dispatch 0, Action.dispatch 1, Action.dispatch 1] = some s ∧
      inFlight s = 4 ∧ s.limit < inFlight s := by
  refine ⟨by decide, ?_, ⟨2, [], [⟨false, 0, 2⟩, ⟨false, 0, 2⟩]⟩, by decide, by decide, by decide⟩
  rw [pageLoop_eq]
  decide

end Collection
